import Mathlib

/-!
Verification of the demand-to-disturbance allocation engine of the
cbm_runner repository.

The engine exists in two historical implementations:

* carbon-domain: cbmcfs3_runner/disturbances/maker.py (class DisturbanceMaker)
* volume-domain: cbmcfs3_runner/pre_processor/dist_maker.py (class DisturbanceMaker)

together with the harvest-proportion table builder in
cbmcfs3_runner/others/silviculture.py (class Silviculture).

Embedding conventions:

* pandas DataFrames become Lean lists of structure values; a column is a
  structure field.
* floats become exact rationals; where pandas silently produces NaN
  (a failed left join, a NaN comparison) the embedding uses Option or an
  explicit extended-value type with IEEE-like rules, as noted at each
  definition.
* a pandas index join `a.set_index(k).join(b.set_index(k))` on rows whose
  key is present on the right becomes a filter + map fan-out; unmatched
  left rows, which pandas keeps with NaN columns, are modelled with Option
  where the downstream code distinguishes them and are dropped where the
  downstream code filters them out anyway (noted at each definition).
* a Python statement that reads an unbound local raises; this is embedded
  with Except and an explicit empty local slot.
-/

namespace CbmRunner

/-- Classifier value for coniferous rows. -/
def cbCon : String := "Con"

/-- Classifier value for broadleaved rows. -/
def cbBroad : String := "Broad"

/-- Harvested-wood-product key for coniferous industrial roundwood. -/
def hwpIrwC : String := "irw_c"

/-- Harvested-wood-product key for broadleaved industrial roundwood. -/
def hwpIrwB : String := "irw_b"

/-- Harvested-wood-product key for coniferous fuelwood. -/
def hwpFwC : String := "fw_c"

/-- Harvested-wood-product key for broadleaved fuelwood. -/
def hwpFwB : String := "fw_b"

/-- The renaming `conifers_broadleaves.replace(["Con","Broad"],["irw_c","irw_b"])`
applied to a single cell (other values pass through unchanged). -/
def irwHwpOf (cb : String) : String :=
  if cb == cbCon then hwpIrwC else if cb == cbBroad then hwpIrwB else cb

/-- The renaming `conifers_broadleaves.replace(["Con","Broad"],["fw_c","fw_b"])`
applied to a single cell (other values pass through unchanged). -/
def fwHwpOf (cb : String) : String :=
  if cb == cbCon then hwpFwC else if cb == cbBroad then hwpFwB else cb

/-- Inverse direction of irwHwpOf on the two roundwood product keys. -/
def cbOfIrw (hwp : String) : String :=
  if hwp == hwpIrwC then cbCon else if hwp == hwpIrwB then cbBroad else hwp

/-- Inverse direction of fwHwpOf on the two fuelwood product keys. -/
def cbOfFw (hwp : String) : String :=
  if hwp == hwpFwC then cbCon else if hwp == hwpFwB then cbBroad else hwp

/-- One row of the economic demand tables `country.demand.gftm_irw` /
`country.demand.gftm_fw`: product key, time step and demand volumes
over/under bark in cubic meters. -/
structure DemandRow where
  hwp : String
  step : Int
  value_ob : ℚ
  value_ub : ℚ
deriving DecidableEq

/-- One row of `country.silviculture.harvest_proportion` as consumed by both
DisturbanceMaker implementations: the classifier tuple, the disturbance
description, the owc/snag byproduct fractions, the allocation proportion
`prop` and the wood density `db` (named `density` in the pre_processor
implementation).  Numeric bookkeeping columns that no modelled code path
reads (year columns, wd, stock columns other than the two kept here) are
omitted. -/
structure HarvestProp where
  hwp : String
  status : String
  forest_type : String
  management_type : String
  management_strategy : String
  conifers_broadleaves : String
  dist_type_name : String
  man_nat : String
  sort_type : Int
  min_age : Int
  max_age : Int
  min_since_last : Int
  max_since_last : Int
  regen_delay : Int
  reset_age : Int
  efficiency : ℚ
  owc_perc : ℚ
  snag_perc : ℚ
  stock_available : ℚ
  prop : ℚ
  db : ℚ
deriving DecidableEq

/-- One row of the per-forest-type species coefficients table
(`country.coefficients[["forest_type","db"]]`). -/
structure Coef where
  forest_type : String
  db : ℚ
deriving DecidableEq

/-! ## Roundwood allocator, carbon domain (disturbances/maker.py, dist_irw) -/

/-- One row of the joined roundwood allocation table produced by
`disturbances/maker.py dist_irw`.  The columns of the originating demand row
are flattened, the harvest-proportion columns are kept as `rule`, and the
four computed columns follow. -/
structure IrwRow where
  hwp : String
  step : Int
  value_ob : ℚ
  rule : HarvestProp
  value_tc : ℚ
  amount : ℚ
  owc_amount_from_IRW : ℚ
  snag_amount_from_IRW : ℚ
deriving DecidableEq

/-- Embedding of `disturbances/maker.py` lines 89-103 (`dist_irw`):
join `gftm_irw` with `harvest_proportion` on the `hwp` key (fan-out over all
matching classifier/disturbance rows), then

    value_tc             = value_ob * db / 2
    amount               = value_tc * prop
    owc_amount_from_IRW  = amount * owc_perc
    snag_amount_from_IRW = amount * snag_perc

A demand row whose hwp matches no harvest-proportion row would survive the
pandas left join as a single all-NaN row; here it simply contributes no row
(the conservation theorems assume each demand product has matching rules).
This definition is the block of rows generated by one demand row `d`. -/
def irwFan (d : DemandRow) (harvest_prop : List HarvestProp) : List IrwRow :=
  (harvest_prop.filter fun p => p.hwp == d.hwp).map fun p =>
    let value_tc := d.value_ob * p.db / 2
    let amount := value_tc * p.prop
    { hwp := d.hwp, step := d.step, value_ob := d.value_ob, rule := p,
      value_tc := value_tc, amount := amount,
      owc_amount_from_IRW := amount * p.owc_perc,
      snag_amount_from_IRW := amount * p.snag_perc }

/-- The full carbon-domain roundwood allocation: the fan-out join over all
demand rows. -/
def dist_irw (gftm_irw : List DemandRow) (harvest_prop : List HarvestProp) :
    List IrwRow :=
  gftm_irw.flatMap fun d => irwFan d harvest_prop

/-! ## Roundwood allocator, volume domain (pre_processor/dist_maker.py, dist_irw) -/

/-- One row of the joined roundwood allocation table of
`pre_processor/dist_maker.py dist_irw` (volume domain). -/
structure IrwVolRow where
  hwp : String
  step : Int
  value_ob : ℚ
  rule : HarvestProp
  amount_m3 : ℚ
  owc_amount_from_irw : ℚ
  snag_amount_from_irw : ℚ
deriving DecidableEq

/-- The `gftm['value_ob'] *= r; gftm['value_ub'] *= r` scaling applied by the
pre_processor implementation to a copy of the demand table (`r` is the
artificial demand multiplier, written `irw_artificial_ratio` in the source;
that source name is shortened here). -/
def scaleDemand (r : ℚ) (l : List DemandRow) : List DemandRow :=
  l.map fun d => { d with value_ob := d.value_ob * r, value_ub := d.value_ub * r }

/-- Embedding of `pre_processor/dist_maker.py` lines 62-80 (`dist_irw`)
WITHOUT the faulty line 69 (see `dist_irw_pre` for the faithful version):
scale the demand, join with the harvest-proportion table on `hwp`, then

    amount_m3            = value_ob * prop
    owc_amount_from_irw  = amount_m3 * owc_perc
    snag_amount_from_irw = amount_m3 * snag_perc

This definition is the block of rows generated by one demand row `d`. -/
def irwVolFan (d : DemandRow) (harvest_prop : List HarvestProp) :
    List IrwVolRow :=
  (harvest_prop.filter fun p => p.hwp == d.hwp).map fun p =>
    let amount_m3 := d.value_ob * p.prop
    { hwp := d.hwp, step := d.step, value_ob := d.value_ob, rule := p,
      amount_m3 := amount_m3,
      owc_amount_from_irw := amount_m3 * p.owc_perc,
      snag_amount_from_irw := amount_m3 * p.snag_perc }

/-- The full volume-domain roundwood allocation (faulty line set aside). -/
def dist_irw_vol (irwArtificial : ℚ) (gftm_irw : List DemandRow)
    (harvest_prop : List HarvestProp) : List IrwVolRow :=
  (scaleDemand irwArtificial gftm_irw).flatMap fun d => irwVolFan d harvest_prop

/-- Errors a Python method of the engine can raise. -/
inductive PyError where
  | unboundLocal (name : String)
  | assertionError
  | dataInconsistency
deriving DecidableEq

/-- Reading a Python local variable: the slot is `none` while the local is
not yet assigned, and reading it then raises UnboundLocalError. -/
def readLocal {α : Type} (slot : Option α) (name : String) : Except PyError α :=
  match slot with
  | some v => Except.ok v
  | none => Except.error (PyError.unboundLocal name)

/-- Faithful embedding of `pre_processor/dist_maker.py` lines 62-80
(`dist_irw`).  After scaling the demand copy (lines 66-67), line 69 executes

    df["value"] = df["value"] * self.fw_artificial_ratio

which reads the local `df` before its first assignment on line 71, so the
method raises UnboundLocalError before the allocation (lines 71-79, embedded
as `dist_irw_vol`) can run. -/
def dist_irw_pre (irwArtificial fwArtificial : ℚ) (gftm_irw : List DemandRow)
    (harvest_prop : List HarvestProp) : Except PyError (List IrwVolRow) := do
  let dfSlot : Option (List IrwVolRow) := none
  let _ ← readLocal dfSlot ("df")
  pure (dist_irw_vol irwArtificial gftm_irw harvest_prop)

/-! ## Grouping, aggregation and outer-join machinery shared by the
conservation validators -/

/-- Key of a demand row for joins on (step, hwp). -/
def dkey (d : DemandRow) : Int × String := (d.step, d.hwp)

/-- Grouping key of a carbon-domain allocation row:
(step, conifers_broadleaves). -/
def irwRowKey (r : IrwRow) : Int × String := (r.step, r.rule.conifers_broadleaves)

/-- Grouping key of a volume-domain allocation row:
(step, conifers_broadleaves). -/
def irwVolRowKey (r : IrwVolRow) : Int × String :=
  (r.step, r.rule.conifers_broadleaves)

/-- The result of `groupby(key).agg({val: sum})` looked up at one key `k`:
the sum of `val` over the rows whose key equals `k`. -/
def sumBy {α K : Type} [BEq K] (key : α → K) (val : α → ℚ) (rows : List α)
    (k : K) : ℚ :=
  ((rows.filter fun r => key r == k).map val).sum

/-- The pandas pattern `rows.groupby([step, cb]).agg({val: sum})` followed by
renaming the conifers_broadleaves column to a product key with `hwpMap`:
one entry per distinct (step, cb) key of `rows`, keyed by (step, hwpMap cb),
carrying the group sum of `val`. -/
def aggTable {α : Type} (rows : List α) (key : α → Int × String)
    (hwpMap : String → String) (val : α → ℚ) : List ((Int × String) × ℚ) :=
  ((rows.map key).dedup).map fun k => ((k.1, hwpMap k.2), sumBy key val rows k)

/-- Outer join of an aggregated table with a demand table on (step, hwp).
A key missing on one side leaves that side NaN in pandas; modelled as none. -/
def outerJoinDemand {β : Type} (agg : List ((Int × String) × β))
    (demand : List DemandRow) : List ((Int × String) × Option β × Option ℚ) :=
  ((agg.map fun e => e.1) ++ demand.map dkey).dedup.map fun k =>
    (k, (agg.find? fun e => e.1 == k).map fun e => e.2,
        (demand.find? fun d => dkey d == k).map fun d => d.value_ob)

/-- One pair of `numpy.testing.assert_allclose(actual, desired, rtol=1e-03)`:
|actual - desired| <= rtol * |desired| (atol is 0). -/
def allClose (actual desired : ℚ) : Bool :=
  |actual - desired| ≤ (1 / 1000) * |desired|

/-- Run a per-pair predicate over the outer join of an aggregate with the
demand; a missing (NaN) side fails the row, as it does both for
assert_allclose and for a NaN comparison under a plain assert. -/
def outerCheck {β : Type} (agg : List ((Int × String) × β))
    (demand : List DemandRow) (pass : β → ℚ → Bool) : Bool :=
  (outerJoinDemand agg demand).all fun row =>
    match row.2.1, row.2.2 with
    | some a, some v => pass a v
    | _, _ => false

/-- Embedding of `disturbances/maker.py` lines 169-193 (`check_dist_irw`):
reconvert the allocated carbon amounts to volume (`amount / db * 2`), group
by (step, conifers_broadleaves), rename Con/Broad to irw_c/irw_b, outer join
the roundwood demand on (step, hwp) and require
assert_allclose(amount_m3, value_ob, rtol=1e-03) on every row.
Returns true exactly when the assertion raises nothing. -/
def check_dist_irw (gftm_irw : List DemandRow) (props : List HarvestProp) :
    Bool :=
  outerCheck
    (aggTable (dist_irw gftm_irw props) irwRowKey irwHwpOf
      fun r => r.amount / r.rule.db * 2)
    gftm_irw allClose

/-- Embedding of `pre_processor/dist_maker.py` lines 139-160
(`dist_irw_converted`): group the volume-domain allocation by
(step, conifers_broadleaves) summing amount_m3, rename Con/Broad to
irw_c/irw_b and outer join the (unscaled) roundwood demand.  The upstream
`dist_irw` raises, and the error propagates. -/
def dist_irw_converted_pre (irwArtificial fwArtificial : ℚ)
    (gftm_irw : List DemandRow) (props : List HarvestProp) :
    Except PyError (List ((Int × String) × Option ℚ × Option ℚ)) := do
  let df ← dist_irw_pre irwArtificial fwArtificial gftm_irw props
  pure (outerJoinDemand
    (aggTable df irwVolRowKey irwHwpOf fun r => r.amount_m3) gftm_irw)

/-- Embedding of `pre_processor/dist_maker.py` lines 162-172
(`check_dist_irw`): assert_allclose(amount_m3, value_ob, rtol=1e-03) over
`dist_irw_converted`.  The upstream UnboundLocalError propagates. -/
def check_dist_irw_pre (irwArtificial fwArtificial : ℚ)
    (gftm_irw : List DemandRow) (props : List HarvestProp) :
    Except PyError Unit := do
  let df ← dist_irw_converted_pre irwArtificial fwArtificial gftm_irw props
  if df.all (fun row =>
      match row.2.1, row.2.2 with
      | some a, some v => allClose a v
      | _, _ => false)
  then pure () else Except.error PyError.assertionError

/-- Sum of the `prop` column over the harvest-proportion rows of one product
category. -/
def propSum (props : List HarvestProp) (hwp : String) : ℚ :=
  ((props.filter fun p => p.hwp == hwp).map fun p => p.prop).sum

/-! ## Fuelwood allocator (disturbances/maker.py, dist_fw) -/

/-- Step 1 of `disturbances/maker.py dist_fw` (lines 113-125): aggregate the
owc and snag byproducts of the roundwood allocation by
(step, conifers_broadleaves) and rename Con/Broad to fw_c/fw_b so the result
joins against the fuelwood demand keys. -/
def aggByp (irw : List IrwRow) : List ((Int × String) × ℚ × ℚ) :=
  ((irw.map irwRowKey).dedup).map fun k =>
    ((k.1, fwHwpOf k.2),
      sumBy irwRowKey (fun r => r.owc_amount_from_IRW) irw k,
      sumBy irwRowKey (fun r => r.snag_amount_from_IRW) irw k)

/-- The netting-and-clipping of lines 153-158: convert the demand, subtract
the two byproducts (NaN, i.e. none, when the (step, hwp) group is absent
from the byproduct aggregate) and replace any non-positive result by zero.
A NaN nets to 0 because Python's `a if a > 0 else 0` evaluates `NaN > 0` to
False. -/
def netClip (conv o s : Option ℚ) : ℚ :=
  match conv, o, s with
  | some c, some o1, some s1 => if c - o1 - s1 > 0 then c - o1 - s1 else 0
  | _, _, _ => 0

/-- One row of the fuelwood allocation table before the final positivity
filter.  `rule` carries the harvest-proportion columns (its `db` is the
column renamed to db_2 by the coefficients join, because pandas lsuffix
renames the left frame's overlapping column); `db` is the coefficients
density (none when the forest type is missing from the coefficients). -/
structure FwRow where
  hwp : String
  step : Int
  value_ob : ℚ
  owc_amount_from_IRW : Option ℚ
  snag_amount_from_IRW : Option ℚ
  rule : HarvestProp
  db : Option ℚ
  value_tc : ℚ
  amount : ℚ
deriving DecidableEq

/-- The block of fuelwood allocation rows generated by one fuelwood demand
row (lines 127-162 of `disturbances/maker.py dist_fw`): look up the
roundwood byproduct aggregate at (step, hwp), fan out over the matching
harvest-proportion rows, attach the coefficients density, then

    value_tc = value_ob * db_2 / 2            (db_2 = rule density)
    value_tc = value_tc - owc_from_irw - snag_from_irw, clipped at zero
    amount   = value_tc * prop / (1 + owc_perc + snag_perc) -/
def fwFan (d : DemandRow) (byps : List ((Int × String) × ℚ × ℚ))
    (props : List HarvestProp) (coefs : List Coef) : List FwRow :=
  let byp := (byps.find? fun e => e.1 == (d.step, d.hwp)).map fun e => e.2
  (props.filter fun p => p.hwp == d.hwp).map fun p =>
    let db := (coefs.find? fun c => c.forest_type == p.forest_type).map
      fun c => c.db
    let value_tc := netClip (some (d.value_ob * p.db / 2))
      (byp.map fun b => b.1) (byp.map fun b => b.2)
    { hwp := d.hwp, step := d.step, value_ob := d.value_ob,
      owc_amount_from_IRW := byp.map fun b => b.1,
      snag_amount_from_IRW := byp.map fun b => b.2,
      rule := p, db := db, value_tc := value_tc,
      amount := value_tc * p.prop / (1 + p.owc_perc + p.snag_perc) }

/-- The fuelwood allocation table of `disturbances/maker.py dist_fw` up to
(but not including) the final `df.query("amount>0")`. -/
def dist_fw_pre_filter (gftm_irw gftm_fw : List DemandRow)
    (props : List HarvestProp) (coefs : List Coef) : List FwRow :=
  let byps := aggByp (dist_irw gftm_irw props)
  gftm_fw.flatMap fun d => fwFan d byps props coefs

/-- The fuelwood allocation table returned by `dist_fw` (line 166:
`df.query("amount>0")`). -/
def dist_fw (gftm_irw gftm_fw : List DemandRow) (props : List HarvestProp)
    (coefs : List Coef) : List FwRow :=
  (dist_fw_pre_filter gftm_irw gftm_fw props coefs).filter fun r =>
    r.amount > 0

/-! ## Fuelwood conservation check (disturbances/maker.py, check_dist_fw) -/

/-- NaN-poisoning addition of pandas values (builtin `sum` over a Series
propagates NaN). -/
def optAdd (a b : Option ℚ) : Option ℚ :=
  match a, b with
  | some x, some y => some (x + y)
  | _, _ => none

/-- Sum of a list of possibly-NaN values; NaN poisons the total. -/
def osum (l : List (Option ℚ)) : Option ℚ := l.foldr optAdd (some 0)

/-- Option-valued group sum (NaN-poisoning). -/
def sumByO {α K : Type} [BEq K] (key : α → K) (val : α → Option ℚ)
    (rows : List α) (k : K) : Option ℚ :=
  osum ((rows.filter fun r => key r == k).map val)

/-- Option-valued variant of `aggTable`. -/
def aggTableO {α : Type} (rows : List α) (key : α → Int × String)
    (hwpMap : String → String) (val : α → Option ℚ) :
    List ((Int × String) × Option ℚ) :=
  ((rows.map key).dedup).map fun k => ((k.1, hwpMap k.2), sumByO key val rows k)

/-- The per-row generated fuelwood volumes assembled by
`disturbances/maker.py check_dist_fw` lines 206-221: first the fuelwood
rows, each re-multiplied by its own (1 + snag_perc + owc_perc) and
reconverted to volume with the coefficients density (`df['db']`, which is
NaN when that coefficient was missing), then the roundwood rows, whose
owc+snag byproduct is reconverted with the rule density. -/
def fwGenRows (irw : List IrwRow) (fw : List FwRow) :
    List ((Int × String) × Option ℚ) :=
  (fw.map fun r => (((r.step, r.rule.conifers_broadleaves) : Int × String),
    r.db.map fun db =>
      r.amount * (1 + r.rule.snag_perc + r.rule.owc_perc) / db * 2))
  ++ (irw.map fun r => (irwRowKey r,
    some ((r.owc_amount_from_IRW + r.snag_amount_from_IRW) / r.rule.db * 2)))

/-- One pair of the final assertion `df['diff_prop'] > -0.02` with
diff_prop = (generated - demand) / demand. -/
def fwPass (gen dem : ℚ) : Bool := (gen - dem) / dem > -(2 / 100)

/-- Embedding of `disturbances/maker.py` lines 195-243 (`check_dist_fw`):
group the generated volumes by (step, conifers_broadleaves), rename
Con/Broad to fw_c/fw_b, outer join the fuelwood demand on (step, hwp) and
assert diff_prop > -0.02 on every row.  Returns true exactly when the
assertion raises nothing; a NaN group sum or a missing side fails. -/
def check_dist_fw (gftm_irw gftm_fw : List DemandRow)
    (props : List HarvestProp) (coefs : List Coef) : Bool :=
  outerCheck
    (aggTableO
      (fwGenRows (dist_irw gftm_irw props)
        (dist_fw gftm_irw gftm_fw props coefs))
      (fun t => t.1) fwHwpOf (fun t => t.2))
    gftm_fw
    (fun og v => match og with
      | some g => fwPass g v
      | none => false)

/-! ## Harvest proportion table builder (others/silviculture.py) -/

/-- One row of the inventory table as read by `stock_based_on_yield`
(classifier index, age class and area; dropped bookkeeping columns such as
UsingID/Delay/HistDist are omitted).  Column spellings follow the source,
including the conifers_bradleaves typo. -/
structure InventoryRow where
  status : String
  forest_type : String
  region : String
  management_type : String
  management_strategy : String
  climatic_unit : String
  conifers_bradleaves : String
  age_class : Int
  Area : ℚ
deriving DecidableEq

/-- One row of the long-form historical yields table: the same classifier
index plus the volume per hectare of that age class. -/
structure YieldRow where
  status : String
  forest_type : String
  region : String
  management_type : String
  management_strategy : String
  climatic_unit : String
  conifers_bradleaves : String
  age_class : Int
  volume : ℚ
deriving DecidableEq

/-- The 8-column join index of `stock_based_on_yield`. -/
def invKey (i : InventoryRow) :
    String × String × String × String × String × String × String × Int :=
  (i.status, i.forest_type, i.region, i.management_type,
    i.management_strategy, i.climatic_unit, i.conifers_bradleaves, i.age_class)

/-- The same index on a yield row. -/
def yldKey (y : YieldRow) :
    String × String × String × String × String × String × String × Int :=
  (y.status, y.forest_type, y.region, y.management_type,
    y.management_strategy, y.climatic_unit, y.conifers_bradleaves, y.age_class)

/-- One row of the joined stock table: volume is none (NaN) when the yield
join found no match, and stock = Area * volume inherits that. -/
structure StockRow where
  status : String
  forest_type : String
  region : String
  management_type : String
  management_strategy : String
  climatic_unit : String
  conifers_bradleaves : String
  age_class : Int
  Area : ℚ
  volume : Option ℚ
  stock : Option ℚ
  age : Int
deriving DecidableEq

/-- Embedding of `others/silviculture.py` lines 119-151
(`stock_based_on_yield`): left join of the inventory with the long yields on
the 8-column classifier index (fan-out; an unmatched inventory row keeps a
single row with NaN volume), then stock = Area * volume and
age = age_class * 10.  This definition builds one output row from an
inventory row and its (possibly missing) yield volume. -/
def stockRowOf (i : InventoryRow) (vol : Option ℚ) : StockRow :=
  { status := i.status, forest_type := i.forest_type, region := i.region,
    management_type := i.management_type,
    management_strategy := i.management_strategy,
    climatic_unit := i.climatic_unit,
    conifers_bradleaves := i.conifers_bradleaves,
    age_class := i.age_class, Area := i.Area, volume := vol,
    stock := vol.map fun v => i.Area * v,
    age := i.age_class * 10 }

/-- The full joined stock table (see `stockRowOf` for the computed
columns). -/
def stock_based_on_yield (inventory : List InventoryRow)
    (h_yields_long : List YieldRow) : List StockRow :=
  inventory.flatMap fun i =>
    if (h_yields_long.filter fun y => yldKey y == invKey i).isEmpty
    then [stockRowOf i none]
    else (h_yields_long.filter fun y => yldKey y == invKey i).map fun y =>
      stockRowOf i (some y.volume)

/-- One row of the silviculture treatments table (silv_treatments.csv) as
read by the builder; Dist_Type_ID is astype(str) in the source.  Numeric
columns the modelled pipeline never reads (Sort_Type, Efficency, WD,
OWC_Perc, Snag_Perc, RegenDelay, ResetAge, Max_since_last, Percent) are
omitted. -/
structure TreatRow where
  forest_type : String
  management_type : String
  management_strategy : String
  conifers_bradleaves : String
  status : String
  Dist_Type_ID : String
  HWP : String
  Min_age : Int
  Max_age : Int
  Min_since_last : Int
  Perc_Merch_Biom_rem : ℚ
  Man_Nat : String
deriving DecidableEq

/-- One row of harvest_corr_fact.csv. -/
structure CorrRow where
  forest_type : String
  corr_fact : ℚ
deriving DecidableEq

/-- The 4-column join index of `stock_available_by_age`. -/
def treatKey4 (t : TreatRow) : String × String × String × String :=
  (t.forest_type, t.management_type, t.management_strategy,
    t.conifers_bradleaves)

/-- The same index on a stock row. -/
def stockKey4 (s : StockRow) : String × String × String × String :=
  (s.forest_type, s.management_type, s.management_strategy,
    s.conifers_bradleaves)

/-- One row of the stock-available-by-age table. -/
structure SAgeRow where
  forest_type : String
  management_type : String
  management_strategy : String
  conifers_bradleaves : String
  status : String
  region : String
  climatic_unit : String
  age_class : Int
  Area : ℚ
  volume : Option ℚ
  stock : Option ℚ
  age : Int
  Dist_Type_ID : String
  HWP : String
  Min_age : Int
  Max_age : Int
  Min_since_last : Int
  Perc_Merch_Biom_rem : ℚ
  corr_fact : Option ℚ
  stock_available : Option ℚ
deriving DecidableEq

/-- Embedding of `others/silviculture.py` lines 191-206 (the join, filters
and stock_available computation of `stock_available_by_age`): join the
stock table with the treatments (four classifier columns, fan-out), attach
the correction factor by forest type (none when absent, as the pandas left
join leaves NaN), keep only rows with Min_age < age < Max_age (both strict)
and stock > 0 (a NaN stock fails the comparison), and compute

    stock_available = stock * corr_fact * Perc_Merch_Biom_rem / Min_since_last

(NaN-propagating).  The source assigns the column after the two filters;
computing the same per-row value before filtering is observationally
identical. -/
def stock_available_by_age_rows (stocks : List StockRow)
    (treats : List TreatRow) (corrs : List CorrRow) : List SAgeRow :=
  ((stocks.flatMap fun s =>
      (treats.filter fun t => treatKey4 t == stockKey4 s).map fun t =>
        let corr := (corrs.find? fun c => c.forest_type == t.forest_type).map
          fun c => c.corr_fact
        { forest_type := s.forest_type, management_type := s.management_type,
          management_strategy := s.management_strategy,
          conifers_bradleaves := s.conifers_bradleaves, status := s.status,
          region := s.region, climatic_unit := s.climatic_unit,
          age_class := s.age_class, Area := s.Area, volume := s.volume,
          stock := s.stock, age := s.age, Dist_Type_ID := t.Dist_Type_ID,
          HWP := t.HWP, Min_age := t.Min_age, Max_age := t.Max_age,
          Min_since_last := t.Min_since_last,
          Perc_Merch_Biom_rem := t.Perc_Merch_Biom_rem, corr_fact := corr,
          stock_available :=
            match s.stock, corr with
            | some st, some cf =>
              some (st * cf * t.Perc_Merch_Biom_rem / (t.Min_since_last : ℚ))
            | _, _ => none : SAgeRow })
    |>.filter fun r => decide (r.Min_age < r.age) && decide (r.age < r.Max_age))
    |>.filter fun r =>
      match r.stock with
      | some st => decide (st > 0)
      | none => false

/-- Embedding of `others/silviculture.py` lines 153-206
(`stock_available_by_age`) including the status-uniqueness guard of lines
184-187: if the treatments carry more than one distinct status value the
method raises, otherwise it returns the joined, filtered table. -/
def stock_available_by_age (stocks : List StockRow) (treats : List TreatRow)
    (corrs : List CorrRow) : Except PyError (List SAgeRow) :=
  if 1 < ((treats.map fun t => t.status).dedup).length
  then Except.error PyError.dataInconsistency
  else Except.ok (stock_available_by_age_rows stocks treats corrs)

/-- The fixed list of natural-disturbance ids ignored when calculating the
harvest proportion (`Silviculture.dist_to_ignore`). -/
def dist_to_ignore : List String :=
  ["5", "7", "21", "DISTID1", "DISTID5", "DISTID7", "DISTID9b_H",
    "DISTID9c_H"]

/-- The 5-column aggregation index of `stock_available_agg`. -/
def aggKey5 (r : SAgeRow) : String × String × String × String × String :=
  (r.forest_type, r.management_type, r.management_strategy,
    r.conifers_bradleaves, r.Dist_Type_ID)

/-- The same index on a treatments row. -/
def treatKey5 (t : TreatRow) : String × String × String × String × String :=
  (t.forest_type, t.management_type, t.management_strategy,
    t.conifers_bradleaves, t.Dist_Type_ID)

/-- One row of the aggregated stock-available table; HWP is none when the
(duplicate-free in practice) treatments lookup finds no row. -/
structure AggRow where
  forest_type : String
  management_type : String
  management_strategy : String
  conifers_bradleaves : String
  Dist_Type_ID : String
  stock_available : ℚ
  HWP : Option String
  status : String
deriving DecidableEq

/-- Embedding of `others/silviculture.py` lines 208-240
(`stock_available_agg`): drop the rows whose Dist_Type_ID is in
`dist_to_ignore`, sum stock_available (pandas string-'sum' treats NaN as 0)
over the 5-column index, join the HWP column back from the treatments and
set status to "For". -/
def stock_available_agg (rows : List SAgeRow) (treats : List TreatRow) :
    List AggRow :=
  let kept := rows.filter fun r => !(dist_to_ignore.contains r.Dist_Type_ID)
  ((kept.map aggKey5).dedup).map fun k =>
    { forest_type := k.1, management_type := k.2.1,
      management_strategy := k.2.2.1, conifers_bradleaves := k.2.2.2.1,
      Dist_Type_ID := k.2.2.2.2,
      stock_available :=
        sumBy aggKey5 (fun r => (r.stock_available).getD 0) kept k,
      HWP := (treats.find? fun t => treatKey5 t == k).map fun t => t.HWP,
      status := "For" }

/-- The 5-column key of an aggregated row. -/
def aggRowKey5 (a : AggRow) : String × String × String × String × String :=
  (a.forest_type, a.management_type, a.management_strategy,
    a.conifers_bradleaves, a.Dist_Type_ID)

/-- One row of the harvest-proportion table: the aggregated row plus the
per-HWP total and the proportion (both NaN when HWP is). -/
structure HPRow where
  forest_type : String
  management_type : String
  management_strategy : String
  conifers_bradleaves : String
  Dist_Type_ID : String
  stock_available : ℚ
  HWP : Option String
  status : String
  stock_tot : Option ℚ
  prop : Option ℚ
deriving DecidableEq

/-- Embedding of `others/silviculture.py` lines 242-294
(`harvest_proportion`), one row at a time: stock_tot is the
groupby('HWP').transform('sum') of stock_available (NaN for a NaN HWP,
which pandas groupby drops), prop is stock_available / stock_tot; the
source's `df.drop(columns=['stock_tot'])` on line 290 discards its result,
so the column stays.  The sort (`sort_values(by=['HWP'], ascending=False)`)
is applied by `harvest_proportion` below. -/
def hpRowOf (aggRows : List AggRow) (r : AggRow) : HPRow :=
  let stock_tot := r.HWP.map fun h =>
    sumBy (fun r2 : AggRow => r2.HWP) (fun r2 => r2.stock_available)
      aggRows (some h)
  { forest_type := r.forest_type, management_type := r.management_type,
    management_strategy := r.management_strategy,
    conifers_bradleaves := r.conifers_bradleaves,
    Dist_Type_ID := r.Dist_Type_ID,
    stock_available := r.stock_available, HWP := r.HWP,
    status := r.status, stock_tot := stock_tot,
    prop := stock_tot.map fun tot => r.stock_available / tot }

/-- The assembled harvest-proportion table: each aggregated row with its
per-HWP total and proportion, sorted by HWP descending. -/
def harvest_proportion (aggRows : List AggRow) : List HPRow :=
  (aggRows.map (hpRowOf aggRows)).mergeSort
    fun a b => decide ((b.HWP.getD "") ≤ (a.HWP.getD ""))

/-! ## Unit conversions under pandas float semantics -/

/-- A pandas float cell: a finite rational, NaN, or a signed infinity. -/
inductive PFloat where
  | fin : ℚ → PFloat
  | nan : PFloat
  | inf : PFloat
  | ninf : PFloat
deriving DecidableEq

/-- IEEE-style multiplication as performed element-wise by pandas/numpy. -/
def pmul : PFloat → PFloat → PFloat
  | PFloat.fin a, PFloat.fin b => PFloat.fin (a * b)
  | PFloat.nan, _ => PFloat.nan
  | _, PFloat.nan => PFloat.nan
  | PFloat.inf, PFloat.fin b =>
    if b > 0 then PFloat.inf else if b < 0 then PFloat.ninf else PFloat.nan
  | PFloat.fin a, PFloat.inf =>
    if a > 0 then PFloat.inf else if a < 0 then PFloat.ninf else PFloat.nan
  | PFloat.ninf, PFloat.fin b =>
    if b > 0 then PFloat.ninf else if b < 0 then PFloat.inf else PFloat.nan
  | PFloat.fin a, PFloat.ninf =>
    if a > 0 then PFloat.ninf else if a < 0 then PFloat.inf else PFloat.nan
  | PFloat.inf, PFloat.inf => PFloat.inf
  | PFloat.inf, PFloat.ninf => PFloat.ninf
  | PFloat.ninf, PFloat.inf => PFloat.ninf
  | PFloat.ninf, PFloat.ninf => PFloat.inf

/-- IEEE-style division as performed element-wise by pandas/numpy: division
by zero silently yields a signed infinity (NaN for 0/0) with at most a
RuntimeWarning, never an exception. -/
def pdiv : PFloat → PFloat → PFloat
  | PFloat.fin a, PFloat.fin b =>
    if b = 0 then
      if a > 0 then PFloat.inf else if a < 0 then PFloat.ninf else PFloat.nan
    else PFloat.fin (a / b)
  | PFloat.nan, _ => PFloat.nan
  | _, PFloat.nan => PFloat.nan
  | PFloat.fin _, PFloat.inf => PFloat.fin 0
  | PFloat.fin _, PFloat.ninf => PFloat.fin 0
  | PFloat.inf, PFloat.fin b => if b < 0 then PFloat.ninf else PFloat.inf
  | PFloat.ninf, PFloat.fin b => if b < 0 then PFloat.inf else PFloat.ninf
  | PFloat.inf, PFloat.inf => PFloat.nan
  | PFloat.inf, PFloat.ninf => PFloat.nan
  | PFloat.ninf, PFloat.inf => PFloat.nan
  | PFloat.ninf, PFloat.ninf => PFloat.nan

/-- The volume-to-carbon conversion exactly as the source writes it:
`df['amount'] = df['amount_m3'] * df['density'] / 2`
(pre_processor/dist_maker.py line 407) and
`df['value_tc'] = df['value_ob'] * df['db'] / 2`
(disturbances/maker.py line 96), under pandas float semantics. -/
def volume_to_carbon (v density : PFloat) : PFloat :=
  pdiv (pmul v density) (PFloat.fin 2)

/-- The carbon-to-volume conversion exactly as the source writes it:
`df['amount_m3'] = df['amount'] / df['db'] * 2`
(disturbances/maker.py line 176), under pandas float semantics. -/
def carbon_to_volume (m density : PFloat) : PFloat :=
  pmul (pdiv m density) (PFloat.fin 2)

/-! ## Disturbance event assembler (disturbances/maker.py, demand_to_dist) -/

/-- The columns of interest selected from the concatenated irw and fw
allocation tables before assembly. -/
structure DistCols where
  status : String
  forest_type : String
  management_type : String
  management_strategy : String
  conifers_broadleaves : String
  dist_type_name : String
  sort_type : Int
  efficiency : ℚ
  min_age : Int
  max_age : Int
  min_since_last : Int
  max_since_last : Int
  regen_delay : Int
  reset_age : Int
  man_nat : String
  amount : ℚ
  step : Int
deriving DecidableEq

/-- Projection of a carbon-domain roundwood allocation row onto the
assembly columns. -/
def irwCols (r : IrwRow) : DistCols :=
  { status := r.rule.status, forest_type := r.rule.forest_type,
    management_type := r.rule.management_type,
    management_strategy := r.rule.management_strategy,
    conifers_broadleaves := r.rule.conifers_broadleaves,
    dist_type_name := r.rule.dist_type_name, sort_type := r.rule.sort_type,
    efficiency := r.rule.efficiency, min_age := r.rule.min_age,
    max_age := r.rule.max_age, min_since_last := r.rule.min_since_last,
    max_since_last := r.rule.max_since_last,
    regen_delay := r.rule.regen_delay, reset_age := r.rule.reset_age,
    man_nat := r.rule.man_nat, amount := r.amount, step := r.step }

/-- Projection of a fuelwood allocation row onto the assembly columns. -/
def fwCols (r : FwRow) : DistCols :=
  { status := r.rule.status, forest_type := r.rule.forest_type,
    management_type := r.rule.management_type,
    management_strategy := r.rule.management_strategy,
    conifers_broadleaves := r.rule.conifers_broadleaves,
    dist_type_name := r.rule.dist_type_name, sort_type := r.rule.sort_type,
    efficiency := r.rule.efficiency, min_age := r.rule.min_age,
    max_age := r.rule.max_age, min_since_last := r.rule.min_since_last,
    max_since_last := r.rule.max_since_last,
    regen_delay := r.rule.regen_delay, reset_age := r.rule.reset_age,
    man_nat := r.rule.man_nat, amount := r.amount, step := r.step }

/-- One row of the simulator-ready disturbance event table
(disturbances/maker.py lines 384-421): classifier placeholders, age bounds
split into identical softwood/hardwood fields, the since-last columns
renamed, and the simulator-mandated constants (using_id false,
measurement_type M, every biomass/snag bound set to the -1 sentinel). -/
structure EventRow where
  status : String
  forest_type : String
  management_type : String
  management_strategy : String
  conifers_broadleaves : String
  dist_type_name : String
  sort_type : Int
  efficiency : ℚ
  min_age : Int
  max_age : Int
  min_since_last_dist : Int
  max_since_last_dist : Int
  regen_delay : Int
  reset_age : Int
  man_nat : String
  amount : ℚ
  step : Int
  climatic_unit : String
  region : String
  sw_start : Int
  sw_end : Int
  hw_start : Int
  hw_end : Int
  using_id : Bool
  measurement_type : String
  last_dist_id : Int
  min_tot_biom_c : Int
  max_tot_biom_c : Int
  min_merch_soft_biom_c : Int
  max_merch_soft_biom_c : Int
  min_merch_hard_biom_c : Int
  max_merch_hard_biom_c : Int
  min_tot_stem_snag_c : Int
  max_tot_stem_snag_c : Int
  min_tot_soft_stem_snag_c : Int
  max_tot_soft_stem_snag_c : Int
  min_tot_hard_stem_snag_c : Int
  max_tot_hard_stem_snag_c : Int
  min_tot_merch_stem_snag_c : Int
  max_tot_merch_stem_snag_c : Int
  min_tot_merch_soft_stem_snag_c : Int
  max_tot_merch_soft_stem_snag_c : Int
  min_tot_merch_hard_stem_snag_c : Int
  max_tot_merch_hard_stem_snag_c : Int
deriving DecidableEq

/-- Assembly of one event row (disturbances/maker.py lines 384-421; the
final column reordering against the historical file is a no-op in a
field-based embedding). -/
def toEvent (r : DistCols) : EventRow :=
  { status := r.status, forest_type := r.forest_type,
    management_type := r.management_type,
    management_strategy := r.management_strategy,
    conifers_broadleaves := r.conifers_broadleaves,
    dist_type_name := r.dist_type_name, sort_type := r.sort_type,
    efficiency := r.efficiency, min_age := r.min_age, max_age := r.max_age,
    min_since_last_dist := r.min_since_last,
    max_since_last_dist := r.max_since_last, regen_delay := r.regen_delay,
    reset_age := r.reset_age, man_nat := r.man_nat, amount := r.amount,
    step := r.step, climatic_unit := "?", region := "?",
    sw_start := r.min_age, sw_end := r.max_age, hw_start := r.min_age,
    hw_end := r.max_age, using_id := false, measurement_type := "M",
    last_dist_id := -1, min_tot_biom_c := -1, max_tot_biom_c := -1,
    min_merch_soft_biom_c := -1, max_merch_soft_biom_c := -1,
    min_merch_hard_biom_c := -1, max_merch_hard_biom_c := -1,
    min_tot_stem_snag_c := -1, max_tot_stem_snag_c := -1,
    min_tot_soft_stem_snag_c := -1, max_tot_soft_stem_snag_c := -1,
    min_tot_hard_stem_snag_c := -1, max_tot_hard_stem_snag_c := -1,
    min_tot_merch_stem_snag_c := -1, max_tot_merch_stem_snag_c := -1,
    min_tot_merch_soft_stem_snag_c := -1,
    max_tot_merch_soft_stem_snag_c := -1,
    min_tot_merch_hard_stem_snag_c := -1,
    max_tot_merch_hard_stem_snag_c := -1 }

/-- The rejection raised when rows use the random sort type 6, carrying
`df_random['dist_type_name'].unique()`. -/
structure AssembleError where
  dist_type_names : List String
deriving DecidableEq

/-- Embedding of `disturbances/maker.py` lines 422-435 (and the identical
check of pre_processor/dist_maker.py lines 430-441): build the event rows,
and if any carries sort_type 6 — the random sort, illegal with
measurement_type M — raise, naming the distinct offending disturbance type
names; otherwise return the table. -/
def demand_to_dist_assemble (rows : List DistCols) :
    Except AssembleError (List EventRow) :=
  if ((rows.map toEvent).filter fun r => r.sort_type == 6).isEmpty
  then Except.ok (rows.map toEvent)
  else Except.error
    ⟨(((rows.map toEvent).filter fun r => r.sort_type == 6).map
        fun r => r.dist_type_name).dedup⟩

/-! ## Concrete example tables (used by the witnesses) -/

/-- A concrete coniferous roundwood demand row: step 1, 1000 m3. -/
def demandRowEx : DemandRow :=
  { hwp := hwpIrwC, step := 1, value_ob := 1000, value_ub := 900 }

/-- A one-row coniferous roundwood demand table. -/
def demandIrwEx : List DemandRow := [demandRowEx]

/-- A concrete harvest-proportion rule (coniferous roundwood, prop 3/5). -/
def propEx1 : HarvestProp :=
  { hwp := hwpIrwC, status := "For", forest_type := "FT1",
    management_type := "MT", management_strategy := "MS",
    conifers_broadleaves := cbCon, dist_type_name := "7", man_nat := "Man",
    sort_type := 1, min_age := 20, max_age := 80, min_since_last := 10,
    max_since_last := 999, regen_delay := 0, reset_age := -1,
    efficiency := 1, owc_perc := 1/10, snag_perc := 1/20,
    stock_available := 60, prop := 3/5, db := 1/2 }

/-- A concrete harvest-proportion rule (coniferous roundwood, prop 2/5). -/
def propEx2 : HarvestProp :=
  { hwp := hwpIrwC, status := "For", forest_type := "FT2",
    management_type := "MT", management_strategy := "MS",
    conifers_broadleaves := cbCon, dist_type_name := "12", man_nat := "Man",
    sort_type := 1, min_age := 20, max_age := 80, min_since_last := 10,
    max_since_last := 999, regen_delay := 0, reset_age := -1,
    efficiency := 1, owc_perc := 1/10, snag_perc := 1/20,
    stock_available := 40, prop := 2/5, db := 2/5 }

/-- The two concrete roundwood rules together: proportions sum to 1. -/
def propsIrwEx : List HarvestProp := [propEx1, propEx2]

/-- A one-row coniferous fuelwood demand table: step 1, 1000 m3. -/
def demandFwEx : List DemandRow :=
  [{ hwp := hwpFwC, step := 1, value_ob := 1000, value_ub := 950 }]

/-- A concrete fuelwood harvest-proportion rule (prop 1). -/
def propFwEx : HarvestProp :=
  { hwp := hwpFwC, status := "For", forest_type := "FT1",
    management_type := "MT", management_strategy := "MS",
    conifers_broadleaves := cbCon, dist_type_name := "10", man_nat := "Man",
    sort_type := 1, min_age := 20, max_age := 80, min_since_last := 10,
    max_since_last := 999, regen_delay := 0, reset_age := -1,
    efficiency := 1, owc_perc := 1/10, snag_perc := 1/20,
    stock_available := 50, prop := 1, db := 1/2 }

/-- Roundwood and fuelwood rules together. -/
def propsAllEx : List HarvestProp := [propEx1, propEx2, propFwEx]

/-- Coefficients table covering the example forest types. -/
def coefsEx : List Coef :=
  [{ forest_type := "FT1", db := 1/2 }, { forest_type := "FT2", db := 2/5 }]

/-- The single row of the example fuelwood pre-filter table. -/
def fwRowEx : FwRow :=
  (dist_fw_pre_filter demandIrwEx demandFwEx propsAllEx coefsEx).head
    (by decide)

/-- A one-row example inventory. -/
def invEx : List InventoryRow :=
  [{ status := "For", forest_type := "FT1", region := "LU00",
     management_type := "MT", management_strategy := "MS",
     climatic_unit := "CU", conifers_bradleaves := cbCon,
     age_class := 3, Area := 2 }]

/-- A one-row example yield table on the same index. -/
def yldEx : List YieldRow :=
  [{ status := "For", forest_type := "FT1", region := "LU00",
     management_type := "MT", management_strategy := "MS",
     climatic_unit := "CU", conifers_bradleaves := cbCon,
     age_class := 3, volume := 5 }]

/-- The single row of the example joined stock table. -/
def sbyRowEx : StockRow := (stock_based_on_yield invEx yldEx).head (by decide)

/-- A one-row example treatments table (man-made disturbance 12). -/
def treatEx : List TreatRow :=
  [{ forest_type := "FT1", management_type := "MT",
     management_strategy := "MS", conifers_bradleaves := cbCon,
     status := "For", Dist_Type_ID := "12", HWP := hwpIrwC,
     Min_age := 20, Max_age := 80, Min_since_last := 10,
     Perc_Merch_Biom_rem := 1/2, Man_Nat := "Man" }]

/-- A one-row example correction-factor table. -/
def corrEx : List CorrRow := [{ forest_type := "FT1", corr_fact := 1 }]

/-- A hand-written stock-available-by-age row used to exercise the
aggregation. -/
def saRowsEx : List SAgeRow :=
  [{ forest_type := "FT1", management_type := "MT",
     management_strategy := "MS", conifers_bradleaves := cbCon,
     status := "For", region := "LU00", climatic_unit := "CU",
     age_class := 3, Area := 2, volume := some 5, stock := some 10,
     age := 30, Dist_Type_ID := "12", HWP := hwpIrwC, Min_age := 20,
     Max_age := 80, Min_since_last := 10, Perc_Merch_Biom_rem := 1/2,
     corr_fact := some 1, stock_available := some (1/2) }]

/-- The single row of the example aggregated stock-available table. -/
def aggRowEx : AggRow := (stock_available_agg saRowsEx treatEx).head (by decide)

/-- An assembly input row carrying the forbidden random sort type 6. -/
def distColsEx6 : DistCols :=
  { status := "For", forest_type := "FT1", management_type := "MT",
    management_strategy := "MS", conifers_broadleaves := cbCon,
    dist_type_name := "29", sort_type := 6, efficiency := 1, min_age := 20,
    max_age := 80, min_since_last := 10, max_since_last := 999,
    regen_delay := 0, reset_age := -1, man_nat := "Man", amount := 100,
    step := 1 }

/-- An assembly input row with a legal sort type. -/
def distColsExOk : DistCols :=
  { status := "For", forest_type := "FT1", management_type := "MT",
    management_strategy := "MS", conifers_broadleaves := cbCon,
    dist_type_name := "7", sort_type := 1, efficiency := 1, min_age := 20,
    max_age := 80, min_since_last := 10, max_since_last := 999,
    regen_delay := 0, reset_age := -1, man_nat := "Man", amount := 100,
    step := 1 }

/-- Two aggregated rows in one product category, stocks 60 and 40. -/
def aggExC2 : List AggRow :=
  [{ forest_type := "FT1", management_type := "MT",
     management_strategy := "MS", conifers_bradleaves := cbCon,
     Dist_Type_ID := "12", stock_available := 60, HWP := some hwpIrwC,
     status := "For" },
   { forest_type := "FT2", management_type := "MT",
     management_strategy := "MS", conifers_bradleaves := cbCon,
     Dist_Type_ID := "3", stock_available := 40, HWP := some hwpIrwC,
     status := "For" }]

/-! ## Claim C6 -/

/-- C6: every evaluation of the pre_processor roundwood allocator `dist_irw`
raises an unbound-name error before producing any allocation, for all demand
and proportion inputs and for all values of the two artificial-demand
multipliers, because line 69 reads the local `df` two lines before `df` is
first assigned; hence this implementation never returns a table. -/
theorem c6_dist_irw_pre_always_unbound (irwArtificial fwArtificial : ℚ)
    (gftm_irw : List DemandRow) (harvest_prop : List HarvestProp) :
    dist_irw_pre irwArtificial fwArtificial gftm_irw harvest_prop
      = Except.error (PyError.unboundLocal ("df")) := rfl

/-! ## Claim C10 -/

/-- Auxiliary: scaling the demand by the default multiplier 1.0 is the
identity. -/
theorem scaleDemand_one (l : List DemandRow) : scaleDemand 1 l = l := by
  induction l with
  | nil => rfl
  | cons d t ih =>
    simp only [scaleDemand, List.map] at ih ⊢
    rw [ih, mul_one, mul_one]

/-- C10: under exact arithmetic, with artificial multiplier 1.0 and nonzero
densities, the carbon-domain allocator (`dist_irw`, amount in tonnes of
carbon, reconverted to volume by `amount / db * 2`) and the volume-domain
allocator (`dist_irw_vol`, the pre_processor computation with its
unbound-variable fault set aside, converted to carbon at assembly by
`amount_m3 * db / 2`) produce equal per-row volumes and equal per-row final
carbon amounts. -/
theorem c10_irw_allocators_equivalent (gftm : List DemandRow)
    (props : List HarvestProp) (hdb : ∀ p ∈ props, p.db ≠ 0) :
    ((dist_irw gftm props).map fun r => r.amount / r.rule.db * 2)
        = ((dist_irw_vol 1 gftm props).map fun r => r.amount_m3)
      ∧ ((dist_irw gftm props).map fun r => r.amount)
        = ((dist_irw_vol 1 gftm props).map fun r => r.amount_m3 * r.rule.db / 2) := by
  unfold dist_irw dist_irw_vol irwFan irwVolFan
  rw [scaleDemand_one]
  constructor
  · rw [List.map_flatMap, List.map_flatMap]
    refine List.flatMap_congr fun d _ => ?_
    rw [List.map_map, List.map_map]
    refine List.map_congr_left fun p hp => ?_
    have hp0 : p ∈ props := (List.mem_filter.mp hp).1
    have h := hdb p hp0
    simp only [Function.comp]
    field_simp
    ring
  · rw [List.map_flatMap, List.map_flatMap]
    refine List.flatMap_congr fun d _ => ?_
    rw [List.map_map, List.map_map]
    refine List.map_congr_left fun p _ => ?_
    simp only [Function.comp]
    ring

/-- Witness for C10: at the concrete one-row demand and two-rule proportion
table (all densities nonzero) the two allocators agree row by row. -/
theorem c10_witness :
    ((dist_irw demandIrwEx propsIrwEx).map fun r => r.amount / r.rule.db * 2)
      = ((dist_irw_vol 1 demandIrwEx propsIrwEx).map fun r => r.amount_m3) :=
  (c10_irw_allocators_equivalent demandIrwEx propsIrwEx
    (by norm_num [propsIrwEx, propEx1, propEx2])).1

/-! ## Grouping lemmas -/

/-- Splitting a grouped sum over an append. -/
theorem sumBy_append {α K : Type} [BEq K] (key : α → K) (val : α → ℚ)
    (l1 l2 : List α) (k : K) :
    sumBy key val (l1 ++ l2) k = sumBy key val l1 k + sumBy key val l2 k := by
  unfold sumBy
  rw [List.filter_append, List.map_append, List.sum_append]

/-- A grouped sum over a fan-out join, evaluated at the group key of one
originating row `a`, collapses to the sum over the block generated by `a`,
provided every generated row keeps its originator's key and originators have
pairwise distinct keys. -/
theorem sumBy_flatMap {α β K : Type} [BEq K] [LawfulBEq K]
    (l : List α) (f : α → List β) (akey : α → K) (key : β → K) (val : β → ℚ)
    (hk : ∀ a ∈ l, ∀ b ∈ f a, key b = akey a)
    (hnd : (l.map akey).Nodup)
    {a : α} (ha : a ∈ l) :
    sumBy key val (l.flatMap f) (akey a) = ((f a).map val).sum := by
  induction l with
  | nil => cases ha
  | cons hd tl ih =>
    have hhd : akey hd ∉ tl.map akey := (List.nodup_cons.mp hnd).1
    have hndtl : (tl.map akey).Nodup := (List.nodup_cons.mp hnd).2
    rw [List.flatMap_cons, sumBy_append]
    rcases List.mem_cons.mp ha with rfl | hatl
    · have h1 : sumBy key val (f a) (akey a) = ((f a).map val).sum := by
        unfold sumBy
        rw [List.filter_eq_self.mpr fun b hb => by
          simp [beq_iff_eq, hk a (List.mem_cons_self a tl) b hb]]
      have h2 : sumBy key val (tl.flatMap f) (akey a) = 0 := by
        unfold sumBy
        rw [List.filter_eq_nil_iff.mpr fun b hb => ?_]
        · simp
        · obtain ⟨a2, ha2, hb2⟩ := List.mem_flatMap.mp hb
          have hkb := hk a2 (List.mem_cons_of_mem _ ha2) b hb2
          simp only [beq_iff_eq, hkb]
          intro hEq
          exact hhd (hEq ▸ List.mem_map.mpr ⟨a2, ha2, rfl⟩)
      rw [h1, h2, add_zero]
    · have hne : akey a ≠ akey hd := by
        intro hEq
        exact hhd (hEq ▸ List.mem_map.mpr ⟨a, hatl, rfl⟩)
      have h1 : sumBy key val (f hd) (akey a) = 0 := by
        unfold sumBy
        rw [List.filter_eq_nil_iff.mpr fun b hb => ?_]
        · simp
        · have hkb := hk hd (List.mem_cons_self hd tl) b hb
          simp only [beq_iff_eq, hkb]
          exact fun hEq => hne hEq.symm
      rw [h1, zero_add]
      exact ih (fun a2 h2 b hb => hk a2 (List.mem_cons_of_mem _ h2) b hb)
        hndtl hatl

/-- find? on a demand table with pairwise distinct keys returns the row
itself when probed at a member's key. -/
theorem find?_demand_of_nodup {demand : List DemandRow}
    (hnd : (demand.map dkey).Nodup) {d : DemandRow} (hd : d ∈ demand) :
    (demand.find? fun d2 => dkey d2 == dkey d) = some d := by
  induction demand with
  | nil => cases hd
  | cons hd0 tl ih =>
    rcases List.mem_cons.mp hd with rfl | htl
    · exact List.find?_cons_of_pos _ (by simp)
    · have hne : ¬(dkey hd0 == dkey d) = true := by
        simp only [beq_iff_eq]
        intro hEq
        exact (List.nodup_cons.mp hnd).1 (hEq ▸ List.mem_map.mpr ⟨d, htl, rfl⟩)
      rw [@List.find?_cons_of_neg _ (fun d2 => dkey d2 == dkey d) hd0 tl hne]
      exact ih (List.nodup_cons.mp hnd).2 htl

/-- Characterization of the outer-join check when every aggregate key
belongs to a demand row and demand keys are pairwise distinct: the check
passes exactly when, for every demand row, the aggregate lookup succeeds
and the per-pair predicate accepts. -/
theorem outerCheck_eq_true_iff {β : Type} (agg : List ((Int × String) × β))
    (demand : List DemandRow) (pass : β → ℚ → Bool)
    (hsub : ∀ e ∈ agg, ∃ d ∈ demand, e.1 = dkey d)
    (hnd : (demand.map dkey).Nodup) :
    outerCheck agg demand pass = true
      ↔ ∀ d ∈ demand, ∃ e, (agg.find? fun e2 => e2.1 == dkey d) = some e
          ∧ pass e.2 d.value_ob = true := by
  unfold outerCheck outerJoinDemand
  rw [List.all_eq_true]
  constructor
  · intro hall d hd
    have hkmem : dkey d ∈ ((agg.map fun e => e.1) ++ demand.map dkey).dedup :=
      List.mem_dedup.mpr (List.mem_append.mpr (Or.inr (List.mem_map.mpr ⟨d, hd, rfl⟩)))
    have hrow := hall _ (List.mem_map.mpr ⟨dkey d, hkmem, rfl⟩)
    rw [find?_demand_of_nodup hnd hd] at hrow
    cases hfind : agg.find? fun e2 => e2.1 == dkey d with
    | none => rw [hfind] at hrow; simp at hrow
    | some e =>
      rw [hfind] at hrow
      exact ⟨e, rfl, by simpa using hrow⟩
  · intro hpass row hrow
    obtain ⟨k, hk, rfl⟩ := List.mem_map.mp hrow
    have hkd : ∃ d ∈ demand, k = dkey d := by
      rcases List.mem_append.mp (List.mem_dedup.mp hk) with hl | hr
      · obtain ⟨e, he, hke⟩ := List.mem_map.mp hl
        obtain ⟨d, hd, hed⟩ := hsub e he
        exact ⟨d, hd, hke ▸ hed⟩
      · obtain ⟨d, hd, hkd⟩ := List.mem_map.mp hr
        exact ⟨d, hd, hkd.symm⟩
    obtain ⟨d, hd, rfl⟩ := hkd
    obtain ⟨e, hfind, hp⟩ := hpass d hd
    rw [hfind, find?_demand_of_nodup hnd hd]
    simpa using hp

/-! ## Claim C1: roundwood conservation -/

/-- Every allocation row generated by one roundwood demand row carries the
group key (step, cbOfIrw hwp), given the product/classifier correspondence
of the rule table. -/
theorem irwFan_key {props : List HarvestProp}
    (H3 : ∀ p ∈ props, (p.hwp = hwpIrwC → p.conifers_broadleaves = cbCon)
      ∧ (p.hwp = hwpIrwB → p.conifers_broadleaves = cbBroad))
    {d : DemandRow} (H4d : d.hwp = hwpIrwC ∨ d.hwp = hwpIrwB) :
    ∀ r ∈ irwFan d props, irwRowKey r = (d.step, cbOfIrw d.hwp) := by
  intro r hr
  obtain ⟨p, hp, rfl⟩ := List.mem_map.mp hr
  obtain ⟨hpmem, hphwp⟩ := List.mem_filter.mp hp
  have hphwp2 : p.hwp = d.hwp := by simpa [beq_iff_eq] using hphwp
  show (d.step, p.conifers_broadleaves) = (d.step, cbOfIrw d.hwp)
  rcases H4d with hc | hc
  · rw [(H3 p hpmem).1 (hphwp2.trans hc), hc]
    exact congrArg _ (by decide)
  · rw [(H3 p hpmem).2 (hphwp2.trans hc), hc]
    exact congrArg _ (by decide)

/-- Same statement for the volume-domain allocation rows. -/
theorem irwVolFan_key {props : List HarvestProp}
    (H3 : ∀ p ∈ props, (p.hwp = hwpIrwC → p.conifers_broadleaves = cbCon)
      ∧ (p.hwp = hwpIrwB → p.conifers_broadleaves = cbBroad))
    {d : DemandRow} (H4d : d.hwp = hwpIrwC ∨ d.hwp = hwpIrwB) :
    ∀ r ∈ irwVolFan d props, irwVolRowKey r = (d.step, cbOfIrw d.hwp) := by
  intro r hr
  obtain ⟨p, hp, rfl⟩ := List.mem_map.mp hr
  obtain ⟨hpmem, hphwp⟩ := List.mem_filter.mp hp
  have hphwp2 : p.hwp = d.hwp := by simpa [beq_iff_eq] using hphwp
  show (d.step, p.conifers_broadleaves) = (d.step, cbOfIrw d.hwp)
  rcases H4d with hc | hc
  · rw [(H3 p hpmem).1 (hphwp2.trans hc), hc]
    exact congrArg _ (by decide)
  · rw [(H3 p hpmem).2 (hphwp2.trans hc), hc]
    exact congrArg _ (by decide)

/-- Distinct (step, hwp) demand keys induce distinct (step, cb) group keys
when every demand product is one of the two roundwood keys. -/
theorem akIrw_nodup {demand : List DemandRow}
    (H4 : ∀ d ∈ demand, d.hwp = hwpIrwC ∨ d.hwp = hwpIrwB)
    (H5 : (demand.map dkey).Nodup) :
    (demand.map fun d => ((d.step, cbOfIrw d.hwp) : Int × String)).Nodup := by
  refine List.Nodup.map_on ?_ (List.Nodup.of_map dkey H5)
  intro x hx y hy hxy
  have hstep : x.step = y.step := congrArg Prod.fst hxy
  have hcb : cbOfIrw x.hwp = cbOfIrw y.hwp := congrArg Prod.snd hxy
  have hhwp : x.hwp = y.hwp := by
    rcases H4 x hx with h1 | h1 <;> rcases H4 y hy with h2 | h2
    · rw [h1, h2]
    · rw [h1, h2] at hcb; exact absurd hcb (by decide)
    · rw [h1, h2] at hcb; exact absurd hcb (by decide)
    · rw [h1, h2]
  exact List.inj_on_of_nodup_map H5 hx hy (by
    show (x.step, x.hwp) = (y.step, y.hwp)
    rw [hstep, hhwp])

/-- The carbon-domain block of one demand row, reconverted to volume and
summed, gives back the demand volume when the proportions of its product
sum to 1 and densities are nonzero. -/
theorem irwFan_conv_sum {props : List HarvestProp} {d : DemandRow}
    (H2 : ∀ p ∈ props, p.db ≠ 0) (H1d : propSum props d.hwp = 1) :
    ((irwFan d props).map fun r => r.amount / r.rule.db * 2).sum = d.value_ob := by
  have key : ((irwFan d props).map fun r => r.amount / r.rule.db * 2)
      = (props.filter fun p => p.hwp == d.hwp).map fun p => d.value_ob * p.prop := by
    unfold irwFan
    rw [List.map_map]
    refine List.map_congr_left fun p hp => ?_
    have hdb := H2 p (List.mem_filter.mp hp).1
    show d.value_ob * p.db / 2 * p.prop / p.db * 2 = d.value_ob * p.prop
    field_simp
    ring
  rw [key, List.sum_map_mul_left]
  show d.value_ob * propSum props d.hwp = d.value_ob
  rw [H1d, mul_one]

/-- The volume-domain block of one demand row sums directly back to the
demand volume. -/
theorem irwVolFan_sum {props : List HarvestProp} {d : DemandRow}
    (H1d : propSum props d.hwp = 1) :
    ((irwVolFan d props).map fun r => r.amount_m3).sum = d.value_ob := by
  have key : ((irwVolFan d props).map fun r => r.amount_m3)
      = (props.filter fun p => p.hwp == d.hwp).map fun p => d.value_ob * p.prop := by
    unfold irwVolFan
    rw [List.map_map]
    exact List.map_congr_left fun p hp => rfl
  rw [key, List.sum_map_mul_left]
  show d.value_ob * propSum props d.hwp = d.value_ob
  rw [H1d, mul_one]

/-- Per-group conservation of the carbon-domain roundwood allocation. -/
theorem irw_group_sum {demand : List DemandRow} {props : List HarvestProp}
    (H1 : ∀ d ∈ demand, propSum props d.hwp = 1)
    (H2 : ∀ p ∈ props, p.db ≠ 0)
    (H3 : ∀ p ∈ props, (p.hwp = hwpIrwC → p.conifers_broadleaves = cbCon)
      ∧ (p.hwp = hwpIrwB → p.conifers_broadleaves = cbBroad))
    (H4 : ∀ d ∈ demand, d.hwp = hwpIrwC ∨ d.hwp = hwpIrwB)
    (H5 : (demand.map dkey).Nodup)
    {d : DemandRow} (hd : d ∈ demand) :
    sumBy irwRowKey (fun r => r.amount / r.rule.db * 2)
      (dist_irw demand props) (d.step, cbOfIrw d.hwp) = d.value_ob := by
  have h := sumBy_flatMap demand (fun d => irwFan d props)
    (fun d => ((d.step, cbOfIrw d.hwp) : Int × String)) irwRowKey
    (fun r => r.amount / r.rule.db * 2)
    (fun a ha r hr => irwFan_key H3 (H4 a ha) r hr)
    (akIrw_nodup H4 H5) hd
  exact h.trans (irwFan_conv_sum H2 (H1 d hd))

/-- Per-group conservation of the volume-domain roundwood allocation at the
default artificial multiplier 1.0. -/
theorem irw_vol_group_sum {demand : List DemandRow} {props : List HarvestProp}
    (H1 : ∀ d ∈ demand, propSum props d.hwp = 1)
    (H3 : ∀ p ∈ props, (p.hwp = hwpIrwC → p.conifers_broadleaves = cbCon)
      ∧ (p.hwp = hwpIrwB → p.conifers_broadleaves = cbBroad))
    (H4 : ∀ d ∈ demand, d.hwp = hwpIrwC ∨ d.hwp = hwpIrwB)
    (H5 : (demand.map dkey).Nodup)
    {d : DemandRow} (hd : d ∈ demand) :
    sumBy irwVolRowKey (fun r => r.amount_m3)
      (dist_irw_vol 1 demand props) (d.step, cbOfIrw d.hwp) = d.value_ob := by
  unfold dist_irw_vol
  rw [scaleDemand_one]
  have h := sumBy_flatMap demand (fun d => irwVolFan d props)
    (fun d => ((d.step, cbOfIrw d.hwp) : Int × String)) irwVolRowKey
    (fun r => r.amount_m3)
    (fun a ha r hr => irwVolFan_key H3 (H4 a ha) r hr)
    (akIrw_nodup H4 H5) hd
  exact h.trans (irwVolFan_sum (H1 d hd))

/-- Every entry of the aggregated reconverted roundwood table is keyed by
the (step, hwp) key of a demand row and carries that group's sum. -/
theorem irw_agg_mem {demand : List DemandRow} {props : List HarvestProp}
    (H3 : ∀ p ∈ props, (p.hwp = hwpIrwC → p.conifers_broadleaves = cbCon)
      ∧ (p.hwp = hwpIrwB → p.conifers_broadleaves = cbBroad))
    (H4 : ∀ d ∈ demand, d.hwp = hwpIrwC ∨ d.hwp = hwpIrwB) :
    ∀ e ∈ aggTable (dist_irw demand props) irwRowKey irwHwpOf
        (fun r => r.amount / r.rule.db * 2),
      ∃ d ∈ demand, e.1 = dkey d
        ∧ e.2 = sumBy irwRowKey (fun r => r.amount / r.rule.db * 2)
            (dist_irw demand props) (d.step, cbOfIrw d.hwp) := by
  intro e he
  unfold aggTable at he
  obtain ⟨k, hk, rfl⟩ := List.mem_map.mp he
  obtain ⟨r, hr, hkr⟩ := List.mem_map.mp (List.mem_dedup.mp hk)
  obtain ⟨d, hd, hrf⟩ := List.mem_flatMap.mp hr
  have hkey := irwFan_key H3 (H4 d hd) r hrf
  refine ⟨d, hd, ?_, ?_⟩
  · rw [← hkr, hkey]
    show (d.step, irwHwpOf (cbOfIrw d.hwp)) = (d.step, d.hwp)
    rcases H4 d hd with h | h <;> rw [h] <;> exact congrArg _ (by decide)
  · rw [← hkr, hkey]

/-- For every demand row the aggregated table has an entry with its key
(the fan-out is nonempty because the proportions sum to 1). -/
theorem irw_agg_key_exists {demand : List DemandRow} {props : List HarvestProp}
    (H1 : ∀ d ∈ demand, propSum props d.hwp = 1)
    (H3 : ∀ p ∈ props, (p.hwp = hwpIrwC → p.conifers_broadleaves = cbCon)
      ∧ (p.hwp = hwpIrwB → p.conifers_broadleaves = cbBroad))
    (H4 : ∀ d ∈ demand, d.hwp = hwpIrwC ∨ d.hwp = hwpIrwB)
    {d : DemandRow} (hd : d ∈ demand) :
    ∃ e ∈ aggTable (dist_irw demand props) irwRowKey irwHwpOf
        (fun r => r.amount / r.rule.db * 2), e.1 = dkey d := by
  have hfan : irwFan d props ≠ [] := by
    intro h
    have h1 := H1 d hd
    unfold propSum at h1
    unfold irwFan at h
    rw [List.map_eq_nil_iff.mp h] at h1
    simp at h1
  obtain ⟨r, hr⟩ := List.exists_mem_of_ne_nil _ hfan
  have hrmem : r ∈ dist_irw demand props := List.mem_flatMap.mpr ⟨d, hd, hr⟩
  have hkey := irwFan_key H3 (H4 d hd) r hr
  have hkmem : irwRowKey r ∈ ((dist_irw demand props).map irwRowKey).dedup :=
    List.mem_dedup.mpr (List.mem_map.mpr ⟨r, hrmem, rfl⟩)
  refine ⟨(((irwRowKey r).1, irwHwpOf (irwRowKey r).2),
      sumBy irwRowKey (fun r => r.amount / r.rule.db * 2)
        (dist_irw demand props) (irwRowKey r)), ?_, ?_⟩
  · exact List.mem_map.mpr ⟨irwRowKey r, hkmem, rfl⟩
  · rw [hkey]
    show (d.step, irwHwpOf (cbOfIrw d.hwp)) = (d.step, d.hwp)
    rcases H4 d hd with h | h <;> rw [h] <;> exact congrArg _ (by decide)

/-- C1 (code_bug support): with proportions summing to 1 within each demand
product, nonzero densities, the Con/Broad product correspondence and
pairwise distinct demand keys, the roundwood allocation conserves volume in
both implementations — the carbon-domain group sums of `amount / db * 2` and
the volume-domain group sums of `amount_m3` both reproduce `value_ob`
exactly (hence within relative tolerance 1e-3) and the carbon-domain
`check_dist_irw` validator passes.  The final conjunct evaluates the
pre_processor validator at the concrete failing input: it raises the
UnboundLocalError of its faulty `dist_irw` instead of passing, contradicting
the claim for the volume-domain implementation. -/
theorem c1_roundwood_allocation_conserves (demand : List DemandRow)
    (props : List HarvestProp)
    (H1 : ∀ d ∈ demand, propSum props d.hwp = 1)
    (H2 : ∀ p ∈ props, p.db ≠ 0)
    (H3 : ∀ p ∈ props, (p.hwp = hwpIrwC → p.conifers_broadleaves = cbCon)
      ∧ (p.hwp = hwpIrwB → p.conifers_broadleaves = cbBroad))
    (H4 : ∀ d ∈ demand, d.hwp = hwpIrwC ∨ d.hwp = hwpIrwB)
    (H5 : (demand.map dkey).Nodup) :
    (∀ d ∈ demand, sumBy irwRowKey (fun r => r.amount / r.rule.db * 2)
        (dist_irw demand props) (d.step, cbOfIrw d.hwp) = d.value_ob)
      ∧ check_dist_irw demand props = true
      ∧ (∀ d ∈ demand, sumBy irwVolRowKey (fun r => r.amount_m3)
          (dist_irw_vol 1 demand props) (d.step, cbOfIrw d.hwp) = d.value_ob)
      ∧ check_dist_irw_pre 1 1 demandIrwEx propsIrwEx
          = Except.error (PyError.unboundLocal ("df")) := by
  refine ⟨fun d hd => irw_group_sum H1 H2 H3 H4 H5 hd, ?_,
    fun d hd => irw_vol_group_sum H1 H3 H4 H5 hd, rfl⟩
  unfold check_dist_irw
  rw [outerCheck_eq_true_iff _ _ _
    (fun e he => (irw_agg_mem H3 H4 e he).imp fun d hh => ⟨hh.1, hh.2.1⟩) H5]
  intro d hd
  obtain ⟨e0, he0, hke⟩ := irw_agg_key_exists H1 H3 H4 hd
  have hsome : (List.find? (fun e2 => e2.1 == dkey d)
      (aggTable (dist_irw demand props) irwRowKey irwHwpOf
        (fun r => r.amount / r.rule.db * 2))).isSome :=
    List.find?_isSome.mpr ⟨e0, he0, by simp [beq_iff_eq, hke]⟩
  obtain ⟨e, hfind⟩ := Option.isSome_iff_exists.mp hsome
  have hemem := List.mem_of_find?_eq_some hfind
  have hpred : e.1 = dkey d := by simpa [beq_iff_eq] using List.find?_some hfind
  obtain ⟨d2, hd2, hk2, hv2⟩ := irw_agg_mem H3 H4 e hemem
  have hdd : d2 = d := List.inj_on_of_nodup_map H5 hd2 hd (hk2.symm.trans hpred)
  subst hdd
  have hval : e.2 = d2.value_ob := hv2.trans (irw_group_sum H1 H2 H3 H4 H5 hd2)
  refine ⟨e, hfind, ?_⟩
  unfold allClose
  rw [hval, decide_eq_true_eq, sub_self, abs_zero]
  positivity

/-- Witness for C1: at the concrete one-row demand and two-rule table all
hypotheses hold, the carbon-domain validator passes, and the concrete
demand row's group sum reproduces its volume. -/
theorem c1_witness :
    check_dist_irw demandIrwEx propsIrwEx = true
      ∧ sumBy irwRowKey (fun r => r.amount / r.rule.db * 2)
          (dist_irw demandIrwEx propsIrwEx)
          (demandRowEx.step, cbOfIrw demandRowEx.hwp) = demandRowEx.value_ob := by
  have h1 : ∀ d ∈ demandIrwEx, propSum propsIrwEx d.hwp = 1 := by
    norm_num [demandIrwEx, demandRowEx, propSum, propsIrwEx, propEx1, propEx2]
  have h2 : ∀ p ∈ propsIrwEx, p.db ≠ 0 := by
    norm_num [propsIrwEx, propEx1, propEx2]
  have hc := c1_roundwood_allocation_conserves demandIrwEx propsIrwEx h1 h2
    (by decide) (by decide) (by decide)
  exact ⟨hc.2.1, hc.1 demandRowEx (List.mem_singleton.mpr rfl)⟩

/-! ## Claims C3 and C4: fuelwood netting, clipping and positivity filter -/

/-- The clipping never produces a negative remaining demand. -/
theorem netClip_nonneg (c o s : Option ℚ) : 0 ≤ netClip c o s := by
  rcases c with _ | c <;> rcases o with _ | o <;> rcases s with _ | s <;>
    simp only [netClip] <;> try exact le_refl 0
  split_ifs with h
  · linarith
  · exact le_refl 0

/-- C3: on every joined fuelwood row the remaining demand equals the
(converted) fuelwood demand value minus the owc and snag byproducts
aggregated from the roundwood allocation, with any non-positive result
replaced by zero (second conjunct, stated for rows whose byproduct lookups
are present); consequently the remaining-demand column `value_tc` is
nonnegative on every row (first conjunct) — a negative net demand is
clipped, never an error (`dist_fw_pre_filter` is a total function). -/
theorem c3_fw_netting_clips (gftm_irw gftm_fw : List DemandRow)
    (props : List HarvestProp) (coefs : List Coef) :
    (∀ r ∈ dist_fw_pre_filter gftm_irw gftm_fw props coefs, 0 ≤ r.value_tc)
      ∧ (∀ r ∈ dist_fw_pre_filter gftm_irw gftm_fw props coefs,
          ∀ o s, r.owc_amount_from_IRW = some o →
            r.snag_amount_from_IRW = some s →
            r.value_tc = if r.value_ob * r.rule.db / 2 - o - s > 0
              then r.value_ob * r.rule.db / 2 - o - s else 0) := by
  constructor
  · intro r hr
    obtain ⟨d, hd, hrf⟩ := List.mem_flatMap.mp hr
    obtain ⟨p, hp, rfl⟩ := List.mem_map.mp hrf
    exact netClip_nonneg _ _ _
  · intro r hr o s ho hs
    obtain ⟨d, hd, hrf⟩ := List.mem_flatMap.mp hr
    obtain ⟨p, hp, rfl⟩ := List.mem_map.mp hrf
    obtain ⟨b, hb, hbo⟩ := Option.map_eq_some'.mp ho
    obtain ⟨b2, hb2, hbs⟩ := Option.map_eq_some'.mp hs
    have hbb : b2 = b := Option.some.inj (hb2.symm.trans hb)
    subst hbb
    show netClip _ _ _ = _
    rw [hb]
    simp only [netClip, Option.map_some']
    rw [hbo, hbs]

/-- C4: on every joined fuelwood row the allocated amount equals
remaining_demand * prop / (1 + owc_perc + snag_perc), every row of the
allocator's output has strictly positive amount, and every row with a
non-positive amount (including the rows whose remaining demand was clipped
to zero) is absent from the output. -/
theorem c4_fw_amount_filter (gftm_irw gftm_fw : List DemandRow)
    (props : List HarvestProp) (coefs : List Coef) :
    (∀ r ∈ dist_fw_pre_filter gftm_irw gftm_fw props coefs,
        r.amount = r.value_tc * r.rule.prop
          / (1 + r.rule.owc_perc + r.rule.snag_perc))
      ∧ (∀ r ∈ dist_fw gftm_irw gftm_fw props coefs, 0 < r.amount)
      ∧ (∀ r ∈ dist_fw_pre_filter gftm_irw gftm_fw props coefs,
          r.amount ≤ 0 → r ∉ dist_fw gftm_irw gftm_fw props coefs) := by
    refine ⟨?_, ?_, ?_⟩
    · intro r hr
      obtain ⟨d, hd, hrf⟩ := List.mem_flatMap.mp hr
      obtain ⟨p, hp, rfl⟩ := List.mem_map.mp hrf
      rfl
    · intro r hr
      exact of_decide_eq_true (List.mem_filter.mp hr).2
    · intro r hr hle hmem
      have hgt := of_decide_eq_true (List.mem_filter.mp hmem).2
      linarith

/-- Witness for C3: the concrete example row is a member of the pre-filter
table and its clipped remaining demand is nonnegative. -/
theorem c3_witness :
    fwRowEx ∈ dist_fw_pre_filter demandIrwEx demandFwEx propsAllEx coefsEx
      ∧ 0 ≤ fwRowEx.value_tc := by
  have hmem : fwRowEx ∈ dist_fw_pre_filter demandIrwEx demandFwEx
      propsAllEx coefsEx := List.head_mem _
  exact ⟨hmem,
    (c3_fw_netting_clips demandIrwEx demandFwEx propsAllEx coefsEx).1
      fwRowEx hmem⟩

/-- Witness for C4: the concrete example row satisfies the amount formula. -/
theorem c4_witness :
    fwRowEx ∈ dist_fw_pre_filter demandIrwEx demandFwEx propsAllEx coefsEx
      ∧ fwRowEx.amount = fwRowEx.value_tc * fwRowEx.rule.prop
          / (1 + fwRowEx.rule.owc_perc + fwRowEx.rule.snag_perc) := by
  have hmem : fwRowEx ∈ dist_fw_pre_filter demandIrwEx demandFwEx
      propsAllEx coefsEx := List.head_mem _
  exact ⟨hmem,
    (c4_fw_amount_filter demandIrwEx demandFwEx propsAllEx coefsEx).1
      fwRowEx hmem⟩

/-! ## Claim C5: fuelwood conservation check -/

/-- A grouped sum at an absent key is the empty sum. -/
theorem sumBy_eq_zero_of_not_mem {α K : Type} [BEq K] [LawfulBEq K]
    (key : α → K) (val : α → ℚ) (rows : List α) (k : K)
    (h : ∀ r ∈ rows, key r ≠ k) : sumBy key val rows k = 0 := by
  unfold sumBy
  rw [List.filter_eq_nil_iff.mpr fun r hr => by
    simp only [beq_iff_eq]; exact h r hr]
  rfl

/-- A NaN-poisoning sum of values that are all present is the plain sum. -/
theorem osum_of_isSome (l : List (Option ℚ)) (h : ∀ x ∈ l, x.isSome) :
    osum l = some ((l.map fun x => x.getD 0).sum) := by
  induction l with
  | nil => rfl
  | cons a t ih =>
    obtain ⟨x, hx⟩ := Option.isSome_iff_exists.mp (h a (List.mem_cons_self a t))
    subst hx
    rw [List.map_cons, List.sum_cons]
    show optAdd (some x) (osum t) = _
    rw [ih fun y hy => h y (List.mem_cons_of_mem _ hy)]
    rfl

/-- An option-valued group sum over rows with all values present collapses
to a plain group sum. -/
theorem sumByO_eq_some {α K : Type} [BEq K] (key : α → K)
    (val : α → Option ℚ) (rows : List α) (k : K)
    (h : ∀ r ∈ rows, (val r).isSome) :
    sumByO key val rows k
      = some (sumBy key (fun r => (val r).getD 0) rows k) := by
  unfold sumByO sumBy
  rw [osum_of_isSome _ fun x hx => ?_, List.map_map]
  · rfl
  · obtain ⟨r, hr, rfl⟩ := List.mem_map.mp hx
    exact h r (List.mem_filter.mp hr).1

/-- Every entry of the option-valued aggregate of the generated fuelwood
volumes whose key is a demand key carries the group sum at the matching
(step, cbOfFw hwp) key. -/
theorem fw_agg_entry {genRows : List ((Int × String) × Option ℚ)}
    (Hg : ∀ t ∈ genRows, t.1.2 = cbCon ∨ t.1.2 = cbBroad)
    {d : DemandRow} :
    ∀ e ∈ aggTableO genRows (fun t => t.1) fwHwpOf (fun t => t.2),
      e.1 = dkey d
        → e.2 = sumByO (fun t => t.1) (fun t => t.2) genRows
            (d.step, cbOfFw d.hwp) := by
  intro e he hek
  unfold aggTableO at he
  obtain ⟨k, hk, rfl⟩ := List.mem_map.mp he
  obtain ⟨t, ht, hkt⟩ := List.mem_map.mp (List.mem_dedup.mp hk)
  have hcb : k.2 = cbCon ∨ k.2 = cbBroad := hkt ▸ Hg t ht
  have hk1 : k.1 = d.step := congrArg Prod.fst hek
  have hk2 : fwHwpOf k.2 = d.hwp := congrArg Prod.snd hek
  have hkey : k = (d.step, cbOfFw d.hwp) := by
    rcases hcb with hc | hc
    · have hdh : d.hwp = hwpFwC := by rw [← hk2, hc]; decide
      rw [Prod.ext_iff]
      refine ⟨hk1, ?_⟩
      rw [hc, hdh]
      show cbCon = cbOfFw hwpFwC
      decide
    · have hdh : d.hwp = hwpFwB := by rw [← hk2, hc]; decide
      rw [Prod.ext_iff]
      refine ⟨hk1, ?_⟩
      rw [hc, hdh]
      show cbBroad = cbOfFw hwpFwB
      decide
  rw [hkey]

/-- C5: the fuelwood conservation check fails (the assert raises) if and
only if some fuelwood demand group's total generated volume — the fuelwood
allocation re-multiplied by each row's own (1 + snag_perc + owc_perc) plus
the roundwood owc+snag byproduct, each reconverted to volume — falls short
of the demand volume by 2% or more relative, i.e. generated <= (1 - 0.02) *
demand; a strict excess over that bound passes.  Hypotheses: fuelwood
demand keys are the fw product keys, pairwise distinct, with positive
volumes; every generated row's group lies in the demand and carries a
present (non-NaN) value. -/
theorem c5_check_dist_fw_iff (gftm_irw gftm_fw : List DemandRow)
    (props : List HarvestProp) (coefs : List Coef)
    (Hd : ∀ d ∈ gftm_fw, d.hwp = hwpFwC ∨ d.hwp = hwpFwB)
    (H5 : (gftm_fw.map dkey).Nodup)
    (Hpos : ∀ d ∈ gftm_fw, 0 < d.value_ob)
    (Hg : ∀ t ∈ fwGenRows (dist_irw gftm_irw props)
        (dist_fw gftm_irw gftm_fw props coefs),
      (t.1.2 = cbCon ∨ t.1.2 = cbBroad)
        ∧ ((t.1.1, fwHwpOf t.1.2) : Int × String) ∈ gftm_fw.map dkey)
    (Hfin : ∀ t ∈ fwGenRows (dist_irw gftm_irw props)
        (dist_fw gftm_irw gftm_fw props coefs), (t.2).isSome) :
    check_dist_fw gftm_irw gftm_fw props coefs = false
      ↔ ∃ d ∈ gftm_fw,
          sumBy (fun t => t.1) (fun t => (t.2).getD 0)
            (fwGenRows (dist_irw gftm_irw props)
              (dist_fw gftm_irw gftm_fw props coefs))
            (d.step, cbOfFw d.hwp) ≤ (1 - 2 / 100) * d.value_ob := by
  have hsub : ∀ e ∈ aggTableO
      (fwGenRows (dist_irw gftm_irw props)
        (dist_fw gftm_irw gftm_fw props coefs))
      (fun t => t.1) fwHwpOf (fun t => t.2),
      ∃ d ∈ gftm_fw, e.1 = dkey d := by
    intro e he
    unfold aggTableO at he
    obtain ⟨k, hk, rfl⟩ := List.mem_map.mp he
    obtain ⟨t, ht, hkt⟩ := List.mem_map.mp (List.mem_dedup.mp hk)
    obtain ⟨d, hd, hdk⟩ := List.mem_map.mp (hkt ▸ (Hg t ht).2)
    exact ⟨d, hd, hdk.symm⟩
  have htrue := outerCheck_eq_true_iff
    (aggTableO
      (fwGenRows (dist_irw gftm_irw props)
        (dist_fw gftm_irw gftm_fw props coefs))
      (fun t => t.1) fwHwpOf (fun t => t.2))
    gftm_fw
    (fun og v => match og with
      | some g => fwPass g v
      | none => false)
    hsub H5
  have hper : ∀ d ∈ gftm_fw,
      ((∃ e, (List.find? (fun e2 => e2.1 == dkey d)
          (aggTableO
            (fwGenRows (dist_irw gftm_irw props)
              (dist_fw gftm_irw gftm_fw props coefs))
            (fun t => t.1) fwHwpOf (fun t => t.2))) = some e
        ∧ (match e.2 with
            | some g => fwPass g d.value_ob
            | none => false) = true)
      ↔ ¬ (sumBy (fun t => t.1) (fun t => (t.2).getD 0)
            (fwGenRows (dist_irw gftm_irw props)
              (dist_fw gftm_irw gftm_fw props coefs))
            (d.step, cbOfFw d.hwp) ≤ (1 - 2 / 100) * d.value_ob)) := by
    intro d hd
    have hv := Hpos d hd
    constructor
    · rintro ⟨e, hfind, hp⟩
      have hemem := List.mem_of_find?_eq_some hfind
      have hek : e.1 = dkey d := by
        simpa [beq_iff_eq] using List.find?_some hfind
      have hval := fw_agg_entry (fun t ht => (Hg t ht).1) e hemem hek
      rw [sumByO_eq_some _ _ _ _ Hfin] at hval
      rw [hval] at hp
      have hpass := of_decide_eq_true hp
      rw [not_le]
      have h2 : -(2 / 100 : ℚ) * d.value_ob
          < (sumBy (fun t => t.1) (fun t => (t.2).getD 0)
              (fwGenRows (dist_irw gftm_irw props)
                (dist_fw gftm_irw gftm_fw props coefs))
              (d.step, cbOfFw d.hwp)) - d.value_ob :=
        (lt_div_iff₀ hv).mp hpass
      linarith
    · intro hns
      rw [not_le] at hns
      have hkey : ∃ t ∈ fwGenRows (dist_irw gftm_irw props)
          (dist_fw gftm_irw gftm_fw props coefs),
          t.1 = ((d.step, cbOfFw d.hwp) : Int × String) := by
        by_contra hno
        push_neg at hno
        rw [sumBy_eq_zero_of_not_mem _ _ _ _ hno] at hns
        nlinarith
      obtain ⟨t, ht, hkt⟩ := hkey
      have hkmem : ((d.step, cbOfFw d.hwp) : Int × String)
          ∈ ((fwGenRows (dist_irw gftm_irw props)
              (dist_fw gftm_irw gftm_fw props coefs)).map
            (fun t => t.1)).dedup :=
        List.mem_dedup.mpr (List.mem_map.mpr ⟨t, ht, hkt⟩)
      have he0mem : (((d.step : Int), fwHwpOf (cbOfFw d.hwp)),
          sumByO (fun t => t.1) (fun t => t.2)
            (fwGenRows (dist_irw gftm_irw props)
              (dist_fw gftm_irw gftm_fw props coefs))
            ((d.step, cbOfFw d.hwp) : Int × String))
          ∈ aggTableO
            (fwGenRows (dist_irw gftm_irw props)
              (dist_fw gftm_irw gftm_fw props coefs))
            (fun t => t.1) fwHwpOf (fun t => t.2) :=
        List.mem_map.mpr ⟨((d.step, cbOfFw d.hwp) : Int × String), hkmem, rfl⟩
      have hfwb : fwHwpOf (cbOfFw d.hwp) = d.hwp := by
        rcases Hd d hd with h | h <;> rw [h] <;> decide
      have hsome : (List.find? (fun e2 => e2.1 == dkey d)
          (aggTableO
            (fwGenRows (dist_irw gftm_irw props)
              (dist_fw gftm_irw gftm_fw props coefs))
            (fun t => t.1) fwHwpOf (fun t => t.2))).isSome :=
        List.find?_isSome.mpr ⟨_, he0mem, by
          simp only [beq_iff_eq]
          show (((d.step : Int), fwHwpOf (cbOfFw d.hwp)) : Int × String)
            = dkey d
          rw [hfwb]
          rfl⟩
      obtain ⟨e, hfind⟩ := Option.isSome_iff_exists.mp hsome
      have hemem := List.mem_of_find?_eq_some hfind
      have hek : e.1 = dkey d := by
        simpa [beq_iff_eq] using List.find?_some hfind
      have hval := fw_agg_entry (fun t2 ht2 => (Hg t2 ht2).1)
        e hemem hek
      rw [sumByO_eq_some _ _ _ _ Hfin] at hval
      refine ⟨e, hfind, ?_⟩
      rw [hval]
      show fwPass _ d.value_ob = true
      unfold fwPass
      rw [decide_eq_true_eq, gt_iff_lt, lt_div_iff₀ hv]
      linarith
  constructor
  · intro hfalse
    by_contra hno
    push_neg at hno
    have : check_dist_fw gftm_irw gftm_fw props coefs = true := by
      unfold check_dist_fw
      rw [htrue]
      intro d hd
      exact (hper d hd).mpr (not_le.mpr (hno d hd))
    rw [this] at hfalse
    cases hfalse
  · rintro ⟨d, hd, hshort⟩
    cases hcheck : check_dist_fw gftm_irw gftm_fw props coefs with
    | false => rfl
    | true =>
      unfold check_dist_fw at hcheck
      exact absurd hshort ((hper d hd).mp (htrue.mp hcheck d hd))

/-- Witness for C5: with a single positive fuelwood demand row and no
allocation at all, the generated total is the empty sum 0, a shortfall of
100% >= 2%, and the check indeed fails. -/
theorem c5_witness : check_dist_fw [] demandFwEx [] [] = false := by
  have hgen : fwGenRows (dist_irw [] []) (dist_fw [] demandFwEx [] [])
      = ([] : List ((Int × String) × Option ℚ)) := rfl
  have hpos : ∀ d ∈ demandFwEx, 0 < d.value_ob := by
    norm_num [demandFwEx]
  refine (c5_check_dist_fw_iff [] demandFwEx [] [] (by decide) (by decide)
    hpos (fun t ht => absurd (hgen ▸ ht) (List.not_mem_nil t))
    (fun t ht => absurd (hgen ▸ ht) (List.not_mem_nil t))).mpr ?_
  refine ⟨{ hwp := hwpFwC, step := 1, value_ob := 1000, value_ub := 950 },
    List.mem_singleton.mpr rfl, ?_⟩
  rw [hgen]
  show (0 : ℚ) ≤ (1 - 2 / 100) * 1000
  norm_num

/-! ## Claim C2: harvest proportions normalize to 1 per product -/

/-- C2: in the harvest_proportion table, for every product category h whose
total stock_available is nonzero, each row of that category has
prop = stock_available / total, and the props of the category sum to
exactly 1. -/
theorem c2_harvest_proportion_sums_to_one (aggRows : List AggRow) (h : String)
    (hT : sumBy (fun r2 : AggRow => r2.HWP) (fun r2 => r2.stock_available)
        aggRows (some h) ≠ 0) :
    (∀ r ∈ harvest_proportion aggRows, r.HWP = some h →
        r.prop = some (r.stock_available
          / sumBy (fun r2 : AggRow => r2.HWP) (fun r2 => r2.stock_available)
              aggRows (some h)))
      ∧ (((harvest_proportion aggRows).filter fun r => r.HWP == some h).map
          fun r => (r.prop).getD 0).sum = 1 := by
  constructor
  · intro r hr hrh
    have hr2 := List.mem_mergeSort.mp hr
    obtain ⟨a, ha, rfl⟩ := List.mem_map.mp hr2
    have hHWP : a.HWP = some h := hrh
    show ((a.HWP.map fun h2 =>
        sumBy (fun r2 : AggRow => r2.HWP) (fun r2 => r2.stock_available)
          aggRows (some h2)).map fun tot => a.stock_available / tot) = _
    rw [hHWP]
    rfl
  · have hsum : (((aggRows.map (hpRowOf aggRows)).filter
        fun r => r.HWP == some h).map fun r => (r.prop).getD 0).sum = 1 := by
      rw [List.filter_map, List.map_map]
      have hcong : ∀ a ∈ aggRows.filter
          ((fun r : HPRow => r.HWP == some h) ∘ hpRowOf aggRows),
          ((fun r : HPRow => (r.prop).getD 0) ∘ hpRowOf aggRows) a
            = a.stock_available
              * (sumBy (fun r2 : AggRow => r2.HWP)
                  (fun r2 => r2.stock_available) aggRows (some h))⁻¹ := by
        intro a ha
        have hHWP : a.HWP = some h := by
          simpa [beq_iff_eq, Function.comp] using (List.mem_filter.mp ha).2
        show ((a.HWP.map fun h2 =>
            sumBy (fun r2 : AggRow => r2.HWP) (fun r2 => r2.stock_available)
              aggRows (some h2)).map fun tot => a.stock_available / tot).getD 0
          = _
        rw [hHWP]
        show a.stock_available
            / sumBy (fun r2 : AggRow => r2.HWP) (fun r2 => r2.stock_available)
                aggRows (some h) = _
        rw [div_eq_mul_inv]
      rw [List.map_congr_left hcong, List.sum_map_mul_right]
      have hfc : aggRows.filter
          ((fun r : HPRow => r.HWP == some h) ∘ hpRowOf aggRows)
          = aggRows.filter fun r => r.HWP == some h :=
        List.filter_congr fun a ha => rfl
      rw [hfc]
      exact mul_inv_cancel₀ hT
    calc (((harvest_proportion aggRows).filter
          fun r => r.HWP == some h).map fun r => (r.prop).getD 0).sum
        = (((aggRows.map (hpRowOf aggRows)).filter
            fun r => r.HWP == some h).map fun r => (r.prop).getD 0).sum :=
          (((List.mergeSort_perm _ _).filter _).map _).sum_eq
      _ = 1 := hsum

/-- Witness for C2: at the two-row concrete aggregate (stocks 60 and 40 in
category irw_c) the total is 100, nonzero, and the props sum to exactly 1. -/
theorem c2_witness :
    (((harvest_proportion aggExC2).filter
        fun r => r.HWP == some hwpIrwC).map fun r => (r.prop).getD 0).sum
      = 1 := by
  have hT : sumBy (fun r2 : AggRow => r2.HWP) (fun r2 => r2.stock_available)
      aggExC2 (some hwpIrwC) ≠ 0 := by
    norm_num [sumBy, aggExC2]
  exact (c2_harvest_proportion_sums_to_one aggExC2 hwpIrwC hT).2

/-! ## Claim C9: stock computation, strict age bounds, positivity and the
natural-disturbance exclusion -/

/-- C9: in the harvest-proportion builder, every joined stock row satisfies
stock = Area * volume and age = age_class * 10; every row surviving
`stock_available_by_age` satisfies the strict age bounds Min_age < age <
Max_age, has positive stock, and (when its stock and correction factor are
present) stock_available = stock * corr_fact * Perc_Merch_Biom_rem /
Min_since_last; and every row of `stock_available_agg` has a disturbance id
outside the fixed ignore list, its sum ranging only over the non-ignored
rows. -/
theorem c9_stock_pipeline (inventory : List InventoryRow)
    (h_yields_long : List YieldRow) (stocks : List StockRow)
    (treats : List TreatRow) (corrs : List CorrRow) :
    (∀ r ∈ stock_based_on_yield inventory h_yields_long,
        r.stock = r.volume.map (fun v => r.Area * v) ∧ r.age = r.age_class * 10)
      ∧ (∀ rows, stock_available_by_age stocks treats corrs = Except.ok rows →
          ∀ r ∈ rows,
            (r.Min_age < r.age ∧ r.age < r.Max_age)
              ∧ (∃ st, r.stock = some st ∧ 0 < st)
              ∧ (∀ st cf, r.stock = some st → r.corr_fact = some cf →
                  r.stock_available
                    = some (st * cf * r.Perc_Merch_Biom_rem
                        / (r.Min_since_last : ℚ))))
      ∧ (∀ rows : List SAgeRow, ∀ a ∈ stock_available_agg rows treats,
          a.Dist_Type_ID ∉ dist_to_ignore
            ∧ a.stock_available = sumBy aggKey5
                (fun r => (r.stock_available).getD 0)
                (rows.filter fun r =>
                  !(dist_to_ignore.contains r.Dist_Type_ID))
                (aggRowKey5 a)) := by
  refine ⟨?_, ?_, ?_⟩
  · intro r hr
    obtain ⟨i, hi, hrf⟩ := List.mem_flatMap.mp hr
    split at hrf
    · rw [List.mem_singleton.mp hrf]
      exact ⟨rfl, rfl⟩
    · obtain ⟨y, hy, rfl⟩ := List.mem_map.mp hrf
      exact ⟨rfl, rfl⟩
  · intro rows hok r hr
    unfold stock_available_by_age at hok
    split at hok
    · cases hok
    · have hrows := Except.ok.inj hok
      subst hrows
      have hr1 := List.mem_filter.mp hr
      have hr2 := List.mem_filter.mp hr1.1
      obtain ⟨s, hs, hrf⟩ := List.mem_flatMap.mp hr2.1
      obtain ⟨t, ht, hreq⟩ := List.mem_map.mp hrf
      have hbounds := hr2.2
      rw [Bool.and_eq_true] at hbounds
      refine ⟨⟨of_decide_eq_true hbounds.1, of_decide_eq_true hbounds.2⟩,
        ?_, ?_⟩
      · subst hreq
        have hpos2 : (match s.stock with
            | some st => decide (st > 0)
            | none => false) = true := hr1.2
        cases hstock : s.stock with
        | none =>
          rw [hstock] at hpos2
          exact Bool.noConfusion hpos2
        | some st =>
          rw [hstock] at hpos2
          exact ⟨st, rfl, of_decide_eq_true hpos2⟩
      · intro st cf hst hcf
        subst hreq
        show (match s.stock,
            ((corrs.find? fun c => c.forest_type == t.forest_type).map
              fun c => c.corr_fact) with
          | some st2, some cf2 =>
            some (st2 * cf2 * t.Perc_Merch_Biom_rem
              / (t.Min_since_last : ℚ))
          | _, _ => none) = _
        rw [show s.stock = some st from hst, show ((corrs.find? fun c =>
          c.forest_type == t.forest_type).map fun c => c.corr_fact)
            = some cf from hcf]
  · intro rows a ha
    obtain ⟨k, hk, rfl⟩ := List.mem_map.mp ha
    obtain ⟨r, hrkept, hrk⟩ := List.mem_map.mp (List.mem_dedup.mp hk)
    have hrpred := (List.mem_filter.mp hrkept).2
    rw [Bool.not_eq_true'] at hrpred
    constructor
    · show k.2.2.2.2 ∉ dist_to_ignore
      intro hmem
      have h5 : r.Dist_Type_ID = k.2.2.2.2 :=
        congrArg (fun x => x.2.2.2.2) hrk
      have hcon : dist_to_ignore.contains r.Dist_Type_ID = true := by
        rw [h5]
        exact List.elem_eq_true_of_mem hmem
      rw [hcon] at hrpred
      cases hrpred
    · rfl

/-- Witness for C9: at the example tables the joined stock row satisfies the
stock formula and the aggregated row's disturbance id is outside the ignore
list. -/
theorem c9_witness :
    (sbyRowEx ∈ stock_based_on_yield invEx yldEx
      ∧ sbyRowEx.stock = sbyRowEx.volume.map fun v => sbyRowEx.Area * v)
      ∧ (aggRowEx ∈ stock_available_agg saRowsEx treatEx
        ∧ aggRowEx.Dist_Type_ID ∉ dist_to_ignore) := by
  have hc := c9_stock_pipeline invEx yldEx [] treatEx corrEx
  have hmem1 : sbyRowEx ∈ stock_based_on_yield invEx yldEx := List.head_mem _
  have hmem2 : aggRowEx ∈ stock_available_agg saRowsEx treatEx :=
    List.head_mem _
  exact ⟨⟨hmem1, (hc.1 sbyRowEx hmem1).1⟩,
    ⟨hmem2, (hc.2.2 saRowsEx aggRowEx hmem2).1⟩⟩

/-! ## Claim C7: unit conversions and zero/missing density -/

/-- C7 counterexample: applying the conversions with a zero density does NOT
raise an error — `carbon_to_volume` silently yields +inf and
`volume_to_carbon` silently yields the finite zero result, and a missing
(NaN) density silently propagates NaN; the embedded pandas arithmetic has no
error outcome at all, contradicting the claim that a zero or missing density
raises rather than producing an infinite, zero or NaN result. -/
theorem c7_counterexample :
    carbon_to_volume (PFloat.fin 1) (PFloat.fin 0) = PFloat.inf
      ∧ volume_to_carbon (PFloat.fin 1) (PFloat.fin 0) = PFloat.fin 0
      ∧ volume_to_carbon (PFloat.fin 1) PFloat.nan = PFloat.nan := by
  refine ⟨?_, ?_, rfl⟩
  · show pmul (pdiv (PFloat.fin 1) (PFloat.fin 0)) (PFloat.fin 2) = _
    norm_num [pdiv, pmul]
  · show pdiv (pmul (PFloat.fin 1) (PFloat.fin 0)) (PFloat.fin 2) = _
    norm_num [pdiv, pmul]

/-- C7 (amended): the conversions do satisfy
volume_to_carbon(v, d) = v * d / 2 and carbon_to_volume(m, d) = m / d * 2
on finite values with nonzero density, but a zero or missing density is not
an error: the division silently produces an infinite, NaN or zero value
(see the counterexample). -/
theorem c7_unit_conversions (a b : ℚ) (hb : b ≠ 0) :
    volume_to_carbon (PFloat.fin a) (PFloat.fin b) = PFloat.fin (a * b / 2)
      ∧ carbon_to_volume (PFloat.fin a) (PFloat.fin b)
          = PFloat.fin (a / b * 2)
      ∧ carbon_to_volume (PFloat.fin a) PFloat.nan = PFloat.nan
      ∧ volume_to_carbon (PFloat.fin a) PFloat.nan = PFloat.nan := by
  refine ⟨?_, ?_, rfl, rfl⟩
  · show pdiv (PFloat.fin (a * b)) (PFloat.fin 2) = _
    norm_num [pdiv]
  · show pmul (pdiv (PFloat.fin a) (PFloat.fin b)) (PFloat.fin 2) = _
    rw [pdiv, if_neg hb]
    rfl

/-- Witness for C7: the amended formulas at the concrete finite pair
(3, 4). -/
theorem c7_witness :
    volume_to_carbon (PFloat.fin 3) (PFloat.fin 4) = PFloat.fin (3 * 4 / 2)
      ∧ carbon_to_volume (PFloat.fin 3) (PFloat.fin 4)
          = PFloat.fin (3 / 4 * 2) :=
  ⟨(c7_unit_conversions 3 4 (by norm_num)).1,
   (c7_unit_conversions 3 4 (by norm_num)).2.1⟩

/-! ## Claim C8: the random sort type aborts assembly -/

/-- C8: assembly raises if and only if some input row carries sort_type 6;
the error names every offending row's disturbance type name; and a
successful assembly contains no row with sort type 6. -/
theorem c8_assemble_sort_type (rows : List DistCols) :
    ((∃ r ∈ rows, r.sort_type = 6)
        ↔ ∃ e, demand_to_dist_assemble rows = Except.error e)
      ∧ (∀ e, demand_to_dist_assemble rows = Except.error e →
          ∀ r ∈ rows, r.sort_type = 6 →
            r.dist_type_name ∈ e.dist_type_names)
      ∧ (∀ out, demand_to_dist_assemble rows = Except.ok out →
          ∀ ev ∈ out, ev.sort_type ≠ 6) := by
  have hmemRandom : ∀ r ∈ rows, r.sort_type = 6 →
      toEvent r ∈ (rows.map toEvent).filter fun r2 => r2.sort_type == 6 := by
    intro r hr h6
    refine List.mem_filter.mpr ⟨List.mem_map.mpr ⟨r, hr, rfl⟩, ?_⟩
    show (r.sort_type == 6) = true
    simp [beq_iff_eq, h6]
  refine ⟨⟨?_, ?_⟩, ?_, ?_⟩
  · rintro ⟨r, hr, h6⟩
    have hne : ¬ ((rows.map toEvent).filter
        fun r2 => r2.sort_type == 6).isEmpty = true := by
      rw [List.isEmpty_iff]
      exact List.ne_nil_of_mem (hmemRandom r hr h6)
    unfold demand_to_dist_assemble
    rw [if_neg hne]
    exact ⟨_, rfl⟩
  · rintro ⟨e, he⟩
    unfold demand_to_dist_assemble at he
    split at he
    · cases he
    · rename_i hne
      rw [List.isEmpty_iff] at hne
      obtain ⟨ev, hev⟩ := List.exists_mem_of_ne_nil _ hne
      have hev2 := List.mem_filter.mp hev
      obtain ⟨r, hr, hrev⟩ := List.mem_map.mp hev2.1
      refine ⟨r, hr, ?_⟩
      have h6 : ev.sort_type = 6 := by simpa [beq_iff_eq] using hev2.2
      rw [← hrev] at h6
      exact h6
  · intro e he r hr h6
    unfold demand_to_dist_assemble at he
    split at he
    · cases he
    · have he2 := (AssembleError.mk.injEq _ _).mp
        (Except.error.inj he).symm
      rw [he2]
      exact List.mem_dedup.mpr (List.mem_map.mpr
        ⟨toEvent r, hmemRandom r hr h6, rfl⟩)
  · intro out hok ev hev
    unfold demand_to_dist_assemble at hok
    split at hok
    · rename_i hemp
      rw [List.isEmpty_iff] at hemp
      rw [← Except.ok.inj hok] at hev
      obtain ⟨r, hr, hrev⟩ := List.mem_map.mp hev
      intro h6
      have : toEvent r ∈ (rows.map toEvent).filter
          fun r2 => r2.sort_type == 6 := by
        refine List.mem_filter.mpr ⟨List.mem_map.mpr ⟨r, hr, rfl⟩, ?_⟩
        rw [hrev]
        simp [beq_iff_eq, h6]
      rw [hemp] at this
      cases this
    · cases hok

/-- Witness for C8: a one-row table with the random sort type 6 makes
assembly raise, and the assembled row of a legal one-row table keeps its
legal sort type. -/
theorem c8_witness :
    (∃ e, demand_to_dist_assemble [distColsEx6] = Except.error e)
      ∧ (toEvent distColsExOk).sort_type ≠ 6 := by
  refine ⟨(c8_assemble_sort_type [distColsEx6]).1.mp
    ⟨distColsEx6, List.mem_singleton.mpr rfl, rfl⟩, ?_⟩
  exact (c8_assemble_sort_type [distColsExOk]).2.2
    [toEvent distColsExOk] rfl (toEvent distColsExOk)
    (List.mem_singleton.mpr rfl)

end CbmRunner
